import Mathlib

/-!
Verification of the person-resolution core of the ews-mcp repository.

The definitions below are a shallow embedding of the Python sources:
  * `src/core/person.py`          — the `Person` entity and its merge algorithm
  * `src/adapters/gal_adapter.py` — the multi-strategy directory (GAL) search
  * `src/adapters/cache_adapter.py` — `CacheAdapter.get_or_fetch`
  * `src/services/person_service.py` — `PersonService.find_person` and ranking

Modelling conventions:
  * machine floats become `Rat`; Python ints become `Int`;
  * `datetime` values become `Int` (days since a fixed epoch), so that
    `(now - last_contact).days` becomes plain integer subtraction;
  * Python `dict[str, ...]` becomes an insertion-ordered association list
    `List (String × _)`; assigning to an existing key keeps its position
    (CPython dict semantics), a new key is appended;
  * `str.lower()` becomes ASCII lowercasing (`pyLower`);
  * fallible constructors (`raise ValueError`) return `Except Unit _`;
  * the external Exchange transport (`resolve_names`, the contacts folder,
    `difflib.SequenceMatcher.ratio`) is an explicit environment record whose
    fields the theorems quantify over.
-/

/-! ### Python-style string helpers -/

/-- ASCII lowercasing of a single character (model of `str.lower` per char). -/
def lowerChar (c : Char) : Char :=
  if 65 ≤ c.toNat ∧ c.toNat ≤ 90 then Char.ofNat (c.toNat + 32) else c

/-- Model of Python `s.lower()` (ASCII). -/
def pyLower (s : String) : String := String.mk (s.toList.map lowerChar)

/-- `startsWithL hay needle`: `needle` is a prefix of `hay` (character lists). -/
def startsWithL : List Char → List Char → Bool
  | _, [] => true
  | [], _ :: _ => false
  | a :: as, b :: bs => a = b && startsWithL as bs

/-- `hasInfixL needle hay`: `needle` occurs contiguously inside `hay`. -/
def hasInfixL (needle : List Char) : List Char → Bool
  | [] => needle.isEmpty
  | c :: rest => startsWithL (c :: rest) needle || hasInfixL needle rest

/-- Model of Python `needle in hay` for strings. -/
def pyIn (needle hay : String) : Bool := hasInfixL needle.toList hay.toList

/-- Model of Python `s.endswith(suffix)`. -/
def pyEndsWith (s suffix : String) : Bool := List.isSuffixOf suffix.toList s.toList

/-- Python truthiness of an optional string: `None` and `""` are falsy. -/
def truthy : Option String → Bool
  | none => false
  | some s => !s.isEmpty

/-! ### Insertion-ordered string-keyed dictionaries -/

/-- First value stored under key `k` (Python `d[k]` read). -/
def alookup {β : Type} (m : List (String × β)) (k : String) : Option β :=
  match m with
  | [] => none
  | kv :: rest => if kv.1 = k then some kv.2 else alookup rest k

/-- Python `d[k] = v`: overwrite in place if present (keeping the key's
position, all occurrences for robustness), append otherwise. -/
def adictSet {β : Type} (m : List (String × β)) (k : String) (v : β) :
    List (String × β) :=
  if m.any (fun kv => kv.1 = k) then
    m.map (fun kv => if kv.1 = k then (k, v) else kv)
  else m ++ [(k, v)]

/-- Python `base.update(upd)` for dicts. -/
def adictUpdate {β : Type} (m upd : List (String × β)) : List (String × β) :=
  upd.foldl (fun acc kv => adictSet acc kv.1 kv.2) m

/-- Insert `x` into `m` before the first element that does not outscore it
(the insertion step of a stable descending sort by `f`). -/
def insertDesc {α : Type} (f : α → Rat) (x : α) : List α → List α
  | [] => [x]
  | y :: ys => if f y ≤ f x then x :: y :: ys else y :: insertDesc f x ys

/-- Stable descending sort by the key `f`: the model of Python
`list.sort(key=f, reverse=True)` (Python guarantees a stable sort; a stable
sort is uniquely determined by sortedness + stability, so insertion sort
computes the same list as the source's Timsort). -/
def sortDesc {α : Type} (f : α → Rat) : List α → List α
  | [] => []
  | x :: xs => insertDesc f x (sortDesc f xs)

/-! ### Core data model (`src/core/person.py`) -/

/-- `PersonSource` enumeration. -/
inductive PersonSource where
  | gal
  | contacts
  | email_history
  | fuzzy_match
deriving DecidableEq, Repr

/-- The `.value` of each `PersonSource` enum member. -/
def PersonSource.value : PersonSource → String
  | .gal => "gal"
  | .contacts => "contacts"
  | .email_history => "email_history"
  | .fuzzy_match => "fuzzy_match"

/-- `EmailAddress` pydantic model. -/
structure EmailAddress where
  address : String
  label : String := "primary"
  is_primary : Bool := true
  routing_type : String := "SMTP"
deriving DecidableEq, Repr

/-- `PhoneNumber` pydantic model. -/
structure PhoneNumber where
  number : String
  type : String := "business"
deriving DecidableEq, Repr

/-- `CommunicationStats` pydantic model (timestamps as epoch days). -/
structure CommunicationStats where
  total_emails : Int := 0
  emails_sent : Int := 0
  emails_received : Int := 0
  first_contact : Option Int := none
  last_contact : Option Int := none
  emails_per_month : Rat := 0
  response_rate : Option Rat := none
  avg_response_time_hours : Option Rat := none
deriving DecidableEq, Repr

/-- `Person` pydantic model (metadata values modelled as strings). -/
structure Person where
  id : String
  name : String
  display_name : Option String := none
  given_name : Option String := none
  surname : Option String := none
  email_addresses : List EmailAddress := []
  phone_numbers : List PhoneNumber := []
  organization : Option String := none
  department : Option String := none
  job_title : Option String := none
  office_location : Option String := none
  communication_stats : Option CommunicationStats := none
  sources : List PersonSource := []
  is_internal : Bool := false
  is_vip : Bool := false
  created_at : Int := 0
  updated_at : Int := 0
  metadata : List (String × String) := []
deriving DecidableEq, Repr

/-- `Person.primary_email`: first address flagged `is_primary`, else the first
address, else `None`. -/
def Person.primary_email (p : Person) : Option String :=
  match p.email_addresses with
  | [] => none
  | first :: _ =>
    match p.email_addresses.find? (fun e => e.is_primary) with
    | some e => some e.address
    | none => some first.address

/-- The priority dictionary of `Person.source_priority`. -/
def sourcePriorityValue : PersonSource → Int
  | .gal => 100
  | .contacts => 80
  | .email_history => 60
  | .fuzzy_match => 20

/-- `Person.source_priority`: max priority over the tagged sources, 0 if none. -/
def Person.source_priority (p : Person) : Int :=
  match p.sources with
  | [] => 0
  | _ => (p.sources.map sourcePriorityValue).foldl max 0

/-- `Person.add_source`: append the tag if absent, bumping `updated_at`. -/
def Person.add_source (p : Person) (source : PersonSource) (now : Int) : Person :=
  if source ∈ p.sources then p
  else { p with sources := p.sources ++ [source], updated_at := now }

/-- The both-sides branch of the stats merge inside `Person.merge_with`
(sum the counters, take the max `last_contact` and min `first_contact`). -/
def combineStats (stats merge_stats : CommunicationStats) : CommunicationStats :=
  let stats := { stats with
    total_emails := stats.total_emails + merge_stats.total_emails
    emails_sent := stats.emails_sent + merge_stats.emails_sent
    emails_received := stats.emails_received + merge_stats.emails_received }
  let stats :=
    match merge_stats.last_contact with
    | none => stats
    | some lc =>
      match stats.last_contact with
      | none => { stats with last_contact := some lc }
      | some blc => if blc < lc then { stats with last_contact := some lc } else stats
  match merge_stats.first_contact with
  | none => stats
  | some fc =>
    match stats.first_contact with
    | none => { stats with first_contact := some fc }
    | some bfc => if fc < bfc then { stats with first_contact := some fc } else stats

/-- Base selection of `Person.merge_with`: the operand with the higher
source priority, ties favouring `self`. -/
def mergeBase (self other : Person) : Person :=
  if self.source_priority ≥ other.source_priority then self else other

/-- Donor selection of `Person.merge_with` (the operand not chosen as base). -/
def mergeDonor (self other : Person) : Person :=
  if self.source_priority ≥ other.source_priority then other else self

/-- The body of `Person.merge_with` after base selection: union emails
(case-insensitive), phones (exact), sources; fill empty professional fields
from the donor; combine stats; OR the vip flag; let donor metadata overwrite
base metadata; stamp `updated_at`. -/
def mergeCore (base donor : Person) (now : Int) : Person :=
  let existing_emails := base.email_addresses.map (fun e => pyLower e.address)
  let newEmails :=
    donor.email_addresses.filter
      (fun e => !(existing_emails.contains (pyLower e.address)))
  let base := { base with email_addresses := base.email_addresses ++ newEmails }
  let existing_phones := base.phone_numbers.map (fun ph => ph.number)
  let newPhones :=
    donor.phone_numbers.filter (fun ph => !(existing_phones.contains ph.number))
  let base := { base with phone_numbers := base.phone_numbers ++ newPhones }
  let base := donor.sources.foldl (fun b s => b.add_source s now) base
  let base := { base with
    organization :=
      if !truthy base.organization && truthy donor.organization then
        donor.organization else base.organization
    department :=
      if !truthy base.department && truthy donor.department then
        donor.department else base.department
    job_title :=
      if !truthy base.job_title && truthy donor.job_title then
        donor.job_title else base.job_title
    office_location :=
      if !truthy base.office_location && truthy donor.office_location then
        donor.office_location else base.office_location }
  let newStats :=
    match donor.communication_stats with
    | none => base.communication_stats
    | some ms =>
      match base.communication_stats with
      | none => some ms
      | some bs => some (combineStats bs ms)
  let base := { base with communication_stats := newStats }
  let base := { base with is_vip := base.is_vip || donor.is_vip }
  let base := { base with metadata := adictUpdate base.metadata donor.metadata }
  { base with updated_at := now }

/-- `Person.merge_with(other)`: merge the donor into a copy of the base. -/
def Person.merge_with (self other : Person) (now : Int) : Person :=
  mergeCore (mergeBase self other) (mergeDonor self other) now

/-! ### External Exchange objects (transport-side shapes)

Loosely-typed library objects read via `getattr(obj, field, default)` are
modelled as records of `Option` fields (`none` = attribute absent or `None`).
-/

/-- A `Mailbox` as returned by `resolve_names`. -/
structure Mailbox where
  email_address : Option String := none
  name : Option String := none
  routing_type : Option String := none
deriving DecidableEq, Repr

/-- A phone entry on a directory/contact object. -/
structure RawPhone where
  phone_number : Option String := none
  label : Option String := none
deriving DecidableEq, Repr

/-- Extended contact data attached to a `resolve_names` result. -/
structure ContactInfo where
  display_name : Option String := none
  given_name : Option String := none
  surname : Option String := none
  company_name : Option String := none
  department : Option String := none
  job_title : Option String := none
  office_location : Option String := none
  phone_numbers : List RawPhone := []
  business_phone : Option String := none
  mobile_phone : Option String := none
deriving DecidableEq, Repr

/-- One `.email_addresses` entry of a personal-contact object. -/
structure ContactEmail where
  email : String
  label : Option String := none
deriving DecidableEq, Repr

/-- An Exchange `Contact` from the personal contacts folder. -/
structure Contact where
  given_name : Option String := none
  surname : Option String := none
  display_name : Option String := none
  company_name : Option String := none
  department : Option String := none
  job_title : Option String := none
  email_addresses : List ContactEmail := []
  phone_numbers : List RawPhone := []
deriving DecidableEq, Repr

/-- Phone extraction loop shared by `from_gal_result` and `from_contact`:
keep entries whose `phone_number` is truthy, defaulting the label. -/
def extractPhones (raw : List RawPhone) : List PhoneNumber :=
  raw.filterMap (fun ph =>
    match ph.phone_number with
    | none => none
    | some n => if n.isEmpty then none else some { number := n, type := ph.label.getD "business" })

/-- `Person.from_gal_result`: build a Person from a resolved mailbox and
optional extended contact info; `ValueError` when the mailbox has no email. -/
def Person.from_gal_result (mailbox : Mailbox) (contact_info : Option ContactInfo)
    (now : Int) : Except Unit Person :=
  match mailbox.email_address with
  | none => .error ()
  | some email =>
    if email.isEmpty then .error ()
    else
      let name :=
        match mailbox.name with
        | none => email
        | some n => if n.isEmpty then email else n
      let email_addr : EmailAddress :=
        { address := email, label := "primary", is_primary := true,
          routing_type := mailbox.routing_type.getD "SMTP" }
      let person : Person :=
        { id := pyLower email, name := name, email_addresses := [email_addr],
          sources := [.gal], created_at := now, updated_at := now }
      match contact_info with
      | none => .ok person
      | some ci =>
        let person := { person with
          display_name := ci.display_name
          given_name := ci.given_name
          surname := ci.surname
          organization := ci.company_name
          department := ci.department
          job_title := ci.job_title
          office_location := ci.office_location }
        let phones := extractPhones ci.phone_numbers
        let phones := phones ++
          (match ci.business_phone with
           | none => []
           | some n => if n.isEmpty then [] else [{ number := n, type := "business" }])
        let phones := phones ++
          (match ci.mobile_phone with
           | none => []
           | some n => if n.isEmpty then [] else [{ number := n, type := "mobile" }])
        .ok { person with phone_numbers := person.phone_numbers ++ phones }

/-- `Person.from_contact`: build a Person from a personal-contact object;
`ValueError` when the contact has no email addresses. -/
def Person.from_contact (contact : Contact) (now : Int) : Except Unit Person :=
  match contact.email_addresses with
  | [] => .error ()
  | first :: _ =>
    let primaryEmail := first.email
    let name :=
      if truthy contact.given_name && truthy contact.surname then
        contact.given_name.getD "" ++ " " ++ contact.surname.getD ""
      else if truthy contact.display_name then contact.display_name.getD ""
      else primaryEmail
    let emails := contact.email_addresses.enum.map (fun ie =>
      { address := ie.2.email,
        label := ie.2.label.getD ("email" ++ toString (ie.1 + 1)),
        is_primary := ie.1 = 0,
        routing_type := "SMTP" : EmailAddress })
    let person : Person :=
      { id := pyLower primaryEmail, name := name,
        display_name := contact.display_name, given_name := contact.given_name,
        surname := contact.surname, email_addresses := emails,
        sources := [.contacts], organization := contact.company_name,
        department := contact.department, job_title := contact.job_title,
        created_at := now, updated_at := now }
    .ok { person with phone_numbers := person.phone_numbers ++ extractPhones contact.phone_numbers }

/-! ### GAL adapter (`src/adapters/gal_adapter.py`) -/

/-- A single `resolve_names` result: tuple shape, object shape, or unknown. -/
inductive ResolveResult where
  | tup (mailbox : Mailbox) (contact : Option ContactInfo)
  | obj (mailbox : Mailbox) (contact : Option ContactInfo)
  | unknown
deriving DecidableEq, Repr

/-- The external collaborators of `GALAdapter`: the directory resolver, the
personal contacts folder and the `SequenceMatcher.ratio` similarity. An
`Except.error` models a raised transport exception. -/
structure GalEnv where
  resolve : String → Bool → Except Unit (List ResolveResult)
  contactsAll : Except Unit (List Contact)
  similarity : String → String → Rat

/-- `GALAdapter._parse_resolve_result`: normalise either result shape and
build a Person; any error becomes `None` (logged and skipped). -/
def parseResolveResult (result : ResolveResult) (return_full_data : Bool)
    (now : Int) : Option Person :=
  match result with
  | .tup mailbox contact =>
    (Person.from_gal_result mailbox (if return_full_data then contact else none) now).toOption
  | .obj mailbox contact =>
    (Person.from_gal_result mailbox (if return_full_data then contact else none) now).toOption
  | .unknown => none

/-- `GALAdapter._search_exact` (strategy 1): resolve the literal query;
transport failure or no matches yield `[]`. -/
def searchExact (env : GalEnv) (query : String) (return_full_data : Bool)
    (now : Int) : List Person :=
  match env.resolve query return_full_data with
  | .error _ => []
  | .ok results =>
    if results.isEmpty then []
    else results.filterMap (fun r => parseResolveResult r return_full_data now)

/-- `GALAdapter._search_contacts_folder`: substring scan of the first 100
personal contacts on given name / surname / display name / first email. -/
def searchContactsFolder (env : GalEnv) (query : String) (now : Int) : List Person :=
  match env.contactsAll with
  | .error _ => []
  | .ok contacts =>
    let query_lower := pyLower query
    (contacts.take 100).filterMap (fun contact =>
      let given_name := contact.given_name.getD ""
      let surname := contact.surname.getD ""
      let display_name := contact.display_name.getD ""
      let email :=
        match contact.email_addresses with
        | [] => ""
        | e :: _ => e.email
      if pyIn query_lower (pyLower given_name) || pyIn query_lower (pyLower surname) ||
         pyIn query_lower (pyLower display_name) || pyIn query_lower (pyLower email) then
        (Person.from_contact contact now).toOption
      else none)

/-- The two-method fallback inside `_search_partial`: the wildcard results if
any parsed, else the contacts-folder results if any, else `[]`. -/
def wildcardCombine (persons contacts_results : List Person) : List Person :=
  if !persons.isEmpty then persons
  else if !contacts_results.isEmpty then contacts_results else []

/-- `GALAdapter._search_partial` (strategy 2): wildcard-suffixed resolution,
falling back to the personal-contacts substring scan; a resolver exception
aborts the whole strategy with `[]`. -/
def searchWildcard (env : GalEnv) (query : String) (return_full_data : Bool)
    (now : Int) : List Person :=
  match env.resolve (query ++ "*") return_full_data with
  | .error _ => []
  | .ok results =>
    wildcardCombine
      (if results.isEmpty then []
       else results.filterMap (fun r => parseResolveResult r return_full_data now))
      (searchContactsFolder env query now)

/-- `GALAdapter._search_domain` (strategy 3): resolve `*@domain` and keep only
results whose primary email really ends in `@domain`. -/
def searchDomain (env : GalEnv) (domain : String) (return_full_data : Bool)
    (now : Int) : List Person :=
  match env.resolve ("*@" ++ domain) return_full_data with
  | .error _ => []
  | .ok results =>
    if results.isEmpty then []
    else results.filterMap (fun r =>
      match parseResolveResult r return_full_data now with
      | none => none
      | some person =>
        match person.primary_email with
        | none => none
        | some pe =>
          if !pe.isEmpty && pyEndsWith pe ("@" ++ domain) then some person else none)

/-- The eight fixed fan-out letters of the fuzzy strategy. -/
def fuzzyLetters : List String := ["A", "M", "S", "K", "F", "H", "N", "R"]

/-- The candidate pool of `_search_fuzzy`: up to 10 parsed results per
fan-out letter, silently skipping letters whose resolution errors. -/
def fuzzyPool (env : GalEnv) (now : Int) : List Person :=
  fuzzyLetters.foldl (fun acc letter =>
    match env.resolve letter false with
    | .error _ => acc
    | .ok results =>
      if results.isEmpty then acc
      else acc ++ (results.take 10).filterMap (fun r => parseResolveResult r false now)) []

/-- The candidate score of the fuzzy strategy: max of name similarity and
primary-email similarity against the lowered query. -/
def fuzzyScore (env : GalEnv) (query_lower : String) (person : Person) : Rat :=
  let name_score := env.similarity query_lower (pyLower person.name)
  let email_score :=
    match person.primary_email with
    | none => (0 : Rat)
    | some pe => if pe.isEmpty then 0 else env.similarity query_lower (pyLower pe)
  max name_score email_score

/-- `GALAdapter._search_fuzzy` (strategy 4): score each pooled candidate,
keep scores at least 0.6, sort descending (stable) and take the top 20. -/
def searchFuzzy (env : GalEnv) (query : String) (now : Int) : List Person :=
  if (fuzzyPool env now).isEmpty then []
  else
    ((sortDesc (fun sp => sp.1)
      ((fuzzyPool env now).filterMap (fun person =>
        if (6 : Rat) / 10 ≤ fuzzyScore env (pyLower query) person then
          some (fuzzyScore env (pyLower query) person, person)
        else none))).take 20).map (fun sp => sp.2)

/-- The provenance-tagging tail of `GALAdapter._merge_results`: applied to the
incoming Person object after it is stored or merged. -/
def tagStrategy (person : Person) (strategy : String) (now : Int) : Person :=
  if (person.sources.map PersonSource.value).contains strategy then person
  else if strategy = "exact" then person.add_source .gal now
  else if strategy = "partial" then person.add_source .gal now
  else if strategy = "domain" then person.add_source .gal now
  else if strategy = "fuzzy" then person.add_source .fuzzy_match now
  else person

/-- One iteration of the `GALAdapter._merge_results` loop. The strategy tag is
added to the incoming `person` object *after* the dictionary store, so it only
reaches the dictionary when the store put that very object there (fresh key);
on a collision the stored value is the merge computed before tagging. -/
def mergeStep (now : Int) (strategy : String) (m : List (String × Person))
    (person : Person) : List (String × Person) :=
  match person.primary_email with
  | none => m
  | some e =>
    if e.isEmpty then m
    else
      let email_key := pyLower e
      match alookup m email_key with
      | some existing => adictSet m email_key (existing.merge_with person now)
      | none => adictSet m email_key (tagStrategy person strategy now)

/-- `GALAdapter._merge_results`: fold the new results into the accumulator. -/
def mergeResults (now : Int) (m : List (String × Person)) (new_results : List Person)
    (strategy : String) : List (String × Person) :=
  new_results.foldl (mergeStep now strategy) m

/-- Accumulator state after strategy 1 of `GALAdapter.search`. -/
def accAfter1 (env : GalEnv) (query : String) (return_full_data : Bool)
    (now : Int) : List (String × Person) :=
  mergeResults now [] (searchExact env query return_full_data now) "exact"

/-- Accumulator state after strategy 2 (attempted only on zero results). -/
def accAfter2 (env : GalEnv) (query : String) (return_full_data : Bool)
    (now : Int) : List (String × Person) :=
  let a1 := accAfter1 env query return_full_data now
  if a1.length = 0 then
    mergeResults now a1 (searchWildcard env query return_full_data now) "partial"
  else a1

/-- Accumulator state after strategy 3 (attempted only when the query has `@`;
the domain is the part after the last `@`). -/
def accAfter3 (env : GalEnv) (query : String) (return_full_data : Bool)
    (now : Int) : List (String × Person) :=
  let a2 := accAfter2 env query return_full_data now
  if query.toList.contains '@' then
    let domain := String.mk ((query.toList.reverse.takeWhile (fun c => !(c = '@'))).reverse)
    mergeResults now a2 (searchDomain env domain return_full_data now) "domain"
  else a2

/-- Accumulator state after strategy 4 (attempted only on zero results). -/
def accAfter4 (env : GalEnv) (query : String) (return_full_data : Bool)
    (now : Int) : List (String × Person) :=
  let a3 := accAfter3 env query return_full_data now
  if a3.length = 0 then
    mergeResults now a3 (searchFuzzy env query now) "fuzzy"
  else a3

/-- `GALAdapter.search` with an explicit trace of the strategies attempted
(`1`–`4`), following the source's early returns at `len >= max_results` and
the zero-result gates on strategies 2 and 4. -/
def searchTrace (env : GalEnv) (query : String) (max_results : Nat)
    (return_full_data : Bool) (now : Int) : List Person × List Nat :=
  let a1 := accAfter1 env query return_full_data now
  if max_results ≤ a1.length then ((a1.map Prod.snd).take max_results, [1])
  else
    let a2 := accAfter2 env query return_full_data now
    let t2 := if a1.length = 0 then [1, 2] else [1]
    if max_results ≤ a2.length then ((a2.map Prod.snd).take max_results, t2)
    else
      let a3 := accAfter3 env query return_full_data now
      let t3 := if query.toList.contains '@' then t2 ++ [3] else t2
      if max_results ≤ a3.length then ((a3.map Prod.snd).take max_results, t3)
      else
        let a4 := accAfter4 env query return_full_data now
        let t4 := if a3.length = 0 then t3 ++ [4] else t3
        ((a4.map Prod.snd).take max_results, t4)

/-- `GALAdapter.search`: the returned person list (insertion order, truncated
to `max_results`). -/
def galSearch (env : GalEnv) (query : String) (max_results : Nat)
    (return_full_data : Bool) (now : Int) : List Person :=
  (searchTrace env query max_results return_full_data now).1

/-! ### Cache adapter (`src/adapters/cache_adapter.py`) -/

/-- `CacheAdapter.get_or_fetch` (lines 90–126), with the TTL store abstracted
to "a non-expired cached value or not": a cache hit short-circuits; otherwise
the fetch outcome is returned, and a fetch exception is logged and re-raised
(`raise`), i.e. the error propagates to the caller. -/
def getOrFetch {α : Type} (cached : Option α) (fetched : Except Unit α) :
    Except Unit α :=
  match cached with
  | some v => .ok v
  | none =>
    match fetched with
    | .ok v => .ok v
    | .error e => .error e

/-! ### Person service (`src/services/person_service.py`) -/

/-- An inbox item as consumed by `_search_email_history` (`sender`,
`datetime_received`), fields read through `safe_get`. -/
structure InboxItem where
  sender : Option Mailbox := none
  datetime_received : Option Int := none
deriving DecidableEq, Repr

/-- A sent item as consumed by `_search_email_history` (`to_recipients`,
`datetime_sent`). -/
structure SentItem where
  to_recipients : List Mailbox := []
  datetime_sent : Option Int := none
deriving DecidableEq, Repr

/-- The running per-email counters of `_search_email_history`. -/
structure HistoryEntry where
  email : String
  name : String
  email_count : Int
  last_contact : Option Int
  first_contact : Option Int
deriving DecidableEq, Repr

/-- Counterpart-filter of `_search_email_history`: for an `@domain` query the
email must end with the domain; otherwise the query must be a substring of the
name or the (already lowercased) email; an empty query matches everything. -/
def historyMatches (query : String) (domain_query : Option String)
    (email name : String) : Bool :=
  match domain_query with
  | some dq => pyEndsWith email ("@" ++ dq)
  | none =>
    if query.isEmpty then true
    else pyIn (pyLower query) (pyLower name) || pyIn (pyLower query) email

/-- Track one counterpart occurrence into the accumulator
(shared inbox/sent tail of `_search_email_history`). -/
def historyTrack (acc : List (String × HistoryEntry)) (email name : String)
    (time : Option Int) : List (String × HistoryEntry) :=
  if email.isEmpty then acc
  else
    let entry :=
      match alookup acc email with
      | some e => e
      | none => { email := email, name := name, email_count := 0,
                  last_contact := none, first_contact := none }
    let entry := { entry with email_count := entry.email_count + 1 }
    let entry :=
      match time with
      | none => entry
      | some t =>
        let entry :=
          match entry.last_contact with
          | none => { entry with last_contact := some t }
          | some lc => if lc < t then { entry with last_contact := some t } else entry
        match entry.first_contact with
        | none => { entry with first_contact := some t }
        | some fc => if t < fc then { entry with first_contact := some t } else entry
    adictSet acc email entry

/-- `PersonService._search_email_history`: scan up to 2000 inbox and 2000 sent
items (already time-filtered by the transport), filter counterparts against
the query, accumulate per-email counters, and emit one EMAIL_HISTORY Person
per distinct counterpart email. A transport exception anywhere yields `[]`. -/
def searchEmailHistory (query : String) (include_stats : Bool)
    (inboxItems : Except Unit (List InboxItem))
    (sentItems : Except Unit (List SentItem)) (now : Int) : List Person :=
  match inboxItems, sentItems with
  | .error _, _ => []
  | _, .error _ => []
  | .ok inbox, .ok sent =>
    let is_domain_search := startsWithL query.toList "@".toList
    let domain_query :=
      if is_domain_search then some (pyLower (String.mk (query.toList.drop 1))) else none
    let acc : List (String × HistoryEntry) := []
    let acc := (inbox.take 2000).foldl (fun acc item =>
      match item.sender with
      | none => acc
      | some sender =>
        let email := pyLower (sender.email_address.getD "")
        let name := sender.name.getD ""
        if historyMatches query domain_query email name then
          historyTrack acc email name item.datetime_received
        else acc) acc
    let acc := (sent.take 2000).foldl (fun acc item =>
      item.to_recipients.foldl (fun acc recipient =>
        let email := pyLower (recipient.email_address.getD "")
        let name := recipient.name.getD ""
        if historyMatches query domain_query email name then
          historyTrack acc email name item.datetime_sent
        else acc) acc) acc
    acc.map (fun ke =>
      let entry := ke.2
      let stats : Option CommunicationStats :=
        if include_stats then
          some { total_emails := entry.email_count, emails_sent := 0,
                 emails_received := 0, first_contact := entry.first_contact,
                 last_contact := entry.last_contact }
        else none
      { id := entry.email,
        name := if entry.name.isEmpty then entry.email else entry.name,
        email_addresses := [{ address := entry.email, is_primary := true }],
        sources := [.email_history],
        communication_stats := stats,
        created_at := now, updated_at := now })

/-- `PersonService._search_contacts`: same substring scan over the first 100
personal contacts as the adapter-level fallback; exceptions yield `[]`. -/
def svcSearchContacts (query : String) (contactsAll : Except Unit (List Contact))
    (now : Int) : List Person :=
  match contactsAll with
  | .error _ => []
  | .ok contacts =>
    let query_lower := pyLower query
    (contacts.take 100).filterMap (fun contact =>
      let given_name := contact.given_name.getD ""
      let surname := contact.surname.getD ""
      let display_name := contact.display_name.getD ""
      let email :=
        match contact.email_addresses with
        | [] => ""
        | e :: _ => e.email
      if pyIn query_lower (pyLower given_name) || pyIn query_lower (pyLower surname) ||
         pyIn query_lower (pyLower display_name) || pyIn query_lower (pyLower email) then
        (Person.from_contact contact now).toOption
      else none)

/-- `calculate_score` inside `PersonService._rank_persons`: source priority,
match bonus (exact primary email +100 / name substring +50), communication
volume, recency, VIP and completeness. -/
def calculateScore (query : String) (now : Int) (person : Person) : Rat :=
  let query_lower := pyLower query
  let s1 : Rat := (person.source_priority : Rat)
  let s2 : Rat :=
    if truthy person.primary_email = true ∧
       query_lower = pyLower ((person.primary_email).getD "") then 100
    else if pyIn query_lower (pyLower person.name) then 50
    else 0
  let s3 : Rat :=
    match person.communication_stats with
    | some st => ((min st.total_emails 50 : Int) : Rat)
    | none => 0
  let s4 : Rat :=
    match person.communication_stats with
    | none => 0
    | some st =>
      match st.last_contact with
      | none => 0
      | some lc =>
        let days_ago : Int := now - lc
        max 0 (30 * (1 - (days_ago : Rat) / 365))
  let s5 : Rat := if person.is_vip then 20 else 0
  let s6 : Rat :=
    (if truthy person.job_title then (5 : Rat) else 0) +
    (if truthy person.department then 5 else 0) +
    (if truthy person.organization then 5 else 0) +
    (if 0 < person.phone_numbers.length then 5 else 0)
  s1 + s2 + s3 + s4 + s5 + s6

/-- `PersonService._rank_persons`: stable sort, descending by score
(Python `list.sort(key=..., reverse=True)`). -/
def rankPersons (persons : List Person) (query : String) (now : Int) : List Person :=
  sortDesc (calculateScore query now) persons

/-- The per-person accumulator store of the GAL block of `find_person`
(`all_persons[email.lower()] = person`, no merge). -/
def galInsert (m : List (String × Person)) (person : Person) : List (String × Person) :=
  match person.primary_email with
  | none => m
  | some e => if e.isEmpty then m else adictSet m (pyLower e) person

/-- The merge-or-insert fold of the contacts and email-history blocks of
`find_person`. -/
def mergeInsert (now : Int) (m : List (String × Person)) (person : Person) :
    List (String × Person) :=
  match person.primary_email with
  | none => m
  | some e =>
    if e.isEmpty then m
    else
      let email_key := pyLower e
      match alookup m email_key with
      | some existing => adictSet m email_key (existing.merge_with person now)
      | none => adictSet m email_key person

/-- The body of `find_person` once the GAL fetch has succeeded: fold the
enabled sources into the email-keyed accumulator, rank and truncate. -/
def findPersonCore (query : String) (srcs : List String) (gal_persons : List Person)
    (contactsAll : Except Unit (List Contact))
    (inboxItems : Except Unit (List InboxItem))
    (sentItems : Except Unit (List SentItem))
    (include_stats : Bool) (max_results : Nat) (now : Int) : List Person :=
  let m : List (String × Person) := gal_persons.foldl galInsert []
  let m :=
    if srcs.contains "contacts" then
      (svcSearchContacts query contactsAll now).foldl (mergeInsert now) m
    else m
  let m :=
    if srcs.contains "email_history" then
      (searchEmailHistory query include_stats inboxItems sentItems now).foldl
        (mergeInsert now) m
    else m
  (rankPersons (m.map Prod.snd) query now).take max_results

/-- The `sources` default of `find_person`: all three when unspecified. -/
def defaultSources (sources : Option (List String)) : List String :=
  match sources with
  | none => ["gal", "contacts", "email_history"]
  | some s => s

/-- `PersonService.find_person`: fold the three enabled sources into one
email-keyed accumulator, rank, truncate. The GAL source goes through
`getOrFetch` (`cachedGal` = a live cache entry, `galFetched` = the outcome of
the adapter fetch) and an error there propagates; the contacts and history
sources absorb their errors internally. -/
def findPerson (query : String) (sources : Option (List String))
    (cachedGal : Option (List Person)) (galFetched : Except Unit (List Person))
    (contactsAll : Except Unit (List Contact))
    (inboxItems : Except Unit (List InboxItem))
    (sentItems : Except Unit (List SentItem))
    (include_stats : Bool) (max_results : Nat) (now : Int) :
    Except Unit (List Person) :=
  match (if (defaultSources sources).contains "gal" then
      getOrFetch cachedGal galFetched else .ok []) with
  | .error e => .error e
  | .ok gal_persons =>
    .ok (findPersonCore query (defaultSources sources) gal_persons contactsAll
      inboxItems sentItems include_stats max_results now)

/-- Modelled from the spec: the caller-facing find-person tool
(`FindPersonTool.execute` in `contact_intelligence_tools.py`, exercised by
`tests/test_gal_search_fix.py` but absent from the sources). Per §7 of the
spec, an empty or missing query string "must surface as a rejected call to
the caller"; a missing query argument defaults to `""`. Otherwise the tool
delegates to the service search. -/
def findPersonToolExecute (query : String) (sources : Option (List String))
    (cachedGal : Option (List Person)) (galFetched : Except Unit (List Person))
    (contactsAll : Except Unit (List Contact))
    (inboxItems : Except Unit (List InboxItem))
    (sentItems : Except Unit (List SentItem))
    (include_stats : Bool) (max_results : Nat) (now : Int) :
    Except String (List Person) :=
  if query.isEmpty then .error "query is required"
  else
    match findPerson query sources cachedGal galFetched contactsAll inboxItems
        sentItems include_stats max_results now with
    | .ok persons => .ok persons
    | .error _ => .error "tool execution failed"

/-! ### Helper lemmas: association lists -/

lemma alookup_append {β : Type} (m l : List (String × β)) (k : String) :
    alookup (m ++ l) k =
      match alookup m k with
      | some v => some v
      | none => alookup l k := by
  induction m with
  | nil => rfl
  | cons kv t ih =>
    by_cases h : kv.1 = k
    · simp [alookup, h]
    · simp [alookup, h, ih]

lemma alookup_map_set {β : Type} (m : List (String × β)) (k : String) (v : β)
    (h : m.any (fun kv => kv.1 = k) = true) :
    alookup (m.map fun kv => if kv.1 = k then (k, v) else kv) k = some v := by
  induction m with
  | nil => simp at h
  | cons kv t ih =>
    by_cases hk : kv.1 = k
    · simp [alookup, hk]
    · have h' : t.any (fun kv => kv.1 = k) = true := by
        simpa [List.any_cons, hk] using h
      simp [alookup, hk, ih h']

lemma alookup_map_set_ne {β : Type} (m : List (String × β)) (k k' : String) (v : β)
    (h : k' ≠ k) :
    alookup (m.map fun kv => if kv.1 = k then (k, v) else kv) k' = alookup m k' := by
  induction m with
  | nil => rfl
  | cons kv t ih =>
    by_cases hk : kv.1 = k
    · simp [alookup, hk, Ne.symm h, ih]
    · simp [alookup, hk, ih]

lemma alookup_eq_none_of_forall_ne {β : Type} (m : List (String × β)) (k : String)
    (h : ∀ kv ∈ m, kv.1 ≠ k) : alookup m k = none := by
  induction m with
  | nil => rfl
  | cons kv t ih =>
    rw [show alookup (kv :: t) k = if kv.1 = k then some kv.2 else alookup t k from rfl,
      if_neg (h kv (by simp))]
    exact ih fun x hx => h x (List.mem_cons_of_mem _ hx)

lemma alookup_adictSet_self {β : Type} (m : List (String × β)) (k : String) (v : β) :
    alookup (adictSet m k v) k = some v := by
  unfold adictSet
  by_cases h : m.any (fun kv => kv.1 = k)
  · simp only [h, if_true]
    exact alookup_map_set m k v h
  · rw [if_neg h]
    have h' : ∀ kv ∈ m, kv.1 ≠ k := by
      intro kv hkv hek
      exact h (List.any_eq_true.mpr ⟨kv, hkv, by simp [hek]⟩)
    rw [alookup_append, alookup_eq_none_of_forall_ne m k h']
    simp [alookup]

lemma alookup_adictSet_ne {β : Type} (m : List (String × β)) (k k' : String) (v : β)
    (h : k' ≠ k) : alookup (adictSet m k v) k' = alookup m k' := by
  unfold adictSet
  by_cases hany : m.any (fun kv => kv.1 = k)
  · simp only [hany, if_true]
    exact alookup_map_set_ne m k k' v h
  · rw [if_neg hany]
    rw [alookup_append]
    cases halm : alookup m k' with
    | some v' => rfl
    | none => simp [alookup, Ne.symm h]

lemma alookup_adictUpdate_not_mem {β : Type} (upd m : List (String × β)) (k : String)
    (h : k ∉ upd.map Prod.fst) :
    alookup (adictUpdate m upd) k = alookup m k := by
  induction upd generalizing m with
  | nil => rfl
  | cons kv t ih =>
    have hk : k ≠ kv.1 := by
      intro he
      exact h (by simp [he])
    have ht : k ∉ t.map Prod.fst := by
      intro hm
      exact h (by simp [hm])
    show alookup (adictUpdate (adictSet m kv.1 kv.2) t) k = alookup m k
    rw [ih (adictSet m kv.1 kv.2) ht, alookup_adictSet_ne _ _ _ _ hk]

lemma alookup_adictUpdate_mem {β : Type} (upd m : List (String × β)) (k : String) (v : β)
    (hnd : (upd.map Prod.fst).Nodup) (hm : (k, v) ∈ upd) :
    alookup (adictUpdate m upd) k = some v := by
  induction upd generalizing m with
  | nil => cases hm
  | cons kv t ih =>
    rcases List.mem_cons.mp hm with he | ht
    · have hk : k ∉ t.map Prod.fst := by
        have := (List.nodup_cons.mp hnd).1
        simpa [← he] using this
      show alookup (adictUpdate (adictSet m kv.1 kv.2) t) k = some v
      rw [alookup_adictUpdate_not_mem t _ k hk, ← he, alookup_adictSet_self]
    · show alookup (adictUpdate (adictSet m kv.1 kv.2) t) k = some v
      exact ih (adictSet m kv.1 kv.2) (List.nodup_cons.mp hnd).2 ht

/-! ### Helper lemmas: the merge algorithm -/

/-- Combined sources/updated_at effect of folding `add_source` over a list. -/
def addAll (cur : List PersonSource) (u : Int) (adds : List PersonSource) (now : Int) :
    List PersonSource × Int :=
  adds.foldl (fun cu s => if s ∈ cu.1 then cu else (cu.1 ++ [s], now)) (cur, u)

lemma foldl_add_source_eq (l : List PersonSource) (p : Person) (now : Int) :
    l.foldl (fun b s => b.add_source s now) p =
      { p with sources := (addAll p.sources p.updated_at l now).1,
               updated_at := (addAll p.sources p.updated_at l now).2 } := by
  induction l generalizing p with
  | nil => rfl
  | cons a t ih =>
    show t.foldl (fun b s => b.add_source s now) (p.add_source a now) = _
    rw [ih]
    unfold Person.add_source
    by_cases h : a ∈ p.sources
    · simp [h, addAll]
    · simp [h, addAll]

lemma mem_addAll_fst_left (cur : List PersonSource) (u : Int) (adds : List PersonSource)
    (now : Int) (s : PersonSource) (h : s ∈ cur) : s ∈ (addAll cur u adds now).1 := by
  induction adds generalizing cur u with
  | nil => exact h
  | cons a t ih =>
    simp only [addAll, List.foldl_cons]
    by_cases ha : a ∈ cur
    · rw [if_pos ha]
      exact ih cur u h
    · rw [if_neg ha]
      exact ih (cur ++ [a]) now (List.mem_append_left _ h)

lemma mem_addAll_fst_right (cur : List PersonSource) (u : Int) (adds : List PersonSource)
    (now : Int) (s : PersonSource) (h : s ∈ adds) : s ∈ (addAll cur u adds now).1 := by
  induction adds generalizing cur u with
  | nil => cases h
  | cons a t ih =>
    simp only [addAll, List.foldl_cons]
    rcases List.mem_cons.mp h with he | ht
    · subst he
      by_cases ha : s ∈ cur
      · rw [if_pos ha]
        exact mem_addAll_fst_left cur u t now s ha
      · rw [if_neg ha]
        exact mem_addAll_fst_left (cur ++ [s]) now t now s (List.mem_append_right _ (by simp))
    · by_cases ha : a ∈ cur
      · rw [if_pos ha]
        exact ih cur u ht
      · rw [if_neg ha]
        exact ih (cur ++ [a]) now ht

lemma mergeCore_email_addresses (b d : Person) (now : Int) :
    (mergeCore b d now).email_addresses =
      b.email_addresses ++
        d.email_addresses.filter
          (fun e => !((b.email_addresses.map (fun x => pyLower x.address)).contains
            (pyLower e.address))) := by
  simp [mergeCore, foldl_add_source_eq]

lemma mergeCore_phone_numbers (b d : Person) (now : Int) :
    (mergeCore b d now).phone_numbers =
      b.phone_numbers ++
        d.phone_numbers.filter
          (fun ph => !((b.phone_numbers.map (fun x => x.number)).contains ph.number)) := by
  simp [mergeCore, foldl_add_source_eq]

lemma mergeCore_sources (b d : Person) (now : Int) :
    (mergeCore b d now).sources = (addAll b.sources b.updated_at d.sources now).1 := by
  simp [mergeCore, foldl_add_source_eq]

lemma mergeCore_organization (b d : Person) (now : Int) :
    (mergeCore b d now).organization =
      if !truthy b.organization && truthy d.organization then d.organization
      else b.organization := by
  simp [mergeCore, foldl_add_source_eq]

lemma mergeCore_department (b d : Person) (now : Int) :
    (mergeCore b d now).department =
      if !truthy b.department && truthy d.department then d.department
      else b.department := by
  simp [mergeCore, foldl_add_source_eq]

lemma mergeCore_job_title (b d : Person) (now : Int) :
    (mergeCore b d now).job_title =
      if !truthy b.job_title && truthy d.job_title then d.job_title
      else b.job_title := by
  simp [mergeCore, foldl_add_source_eq]

lemma mergeCore_office_location (b d : Person) (now : Int) :
    (mergeCore b d now).office_location =
      if !truthy b.office_location && truthy d.office_location then d.office_location
      else b.office_location := by
  simp [mergeCore, foldl_add_source_eq]

lemma mergeCore_metadata (b d : Person) (now : Int) :
    (mergeCore b d now).metadata = adictUpdate b.metadata d.metadata := by
  simp [mergeCore, foldl_add_source_eq]

lemma mergeBase_mergeDonor_cases (A B : Person) :
    (mergeBase A B = A ∧ mergeDonor A B = B) ∨
      (mergeBase A B = B ∧ mergeDonor A B = A) := by
  unfold mergeBase mergeDonor
  by_cases h : A.source_priority ≥ B.source_priority
  · left
    simp [h]
  · right
    simp [h]

lemma mergeCore_email_mem (b d : Person) (now : Int) (e : EmailAddress)
    (h : e ∈ b.email_addresses ∨ e ∈ d.email_addresses) :
    ∃ e2 ∈ (mergeCore b d now).email_addresses,
      pyLower e2.address = pyLower e.address := by
  rw [mergeCore_email_addresses]
  rcases h with h | h
  · exact ⟨e, List.mem_append_left _ h, rfl⟩
  · by_cases hc : (b.email_addresses.map (fun x => pyLower x.address)).contains
        (pyLower e.address)
    · have hmem : pyLower e.address ∈ b.email_addresses.map (fun x => pyLower x.address) := by
        simpa using hc
      rcases List.mem_map.mp hmem with ⟨e2, he2, heq⟩
      exact ⟨e2, List.mem_append_left _ he2, heq⟩
    · refine ⟨e, List.mem_append_right _ ?_, rfl⟩
      exact List.mem_filter.mpr ⟨h, by simpa using hc⟩

lemma mergeCore_phone_mem (b d : Person) (now : Int) (ph : PhoneNumber)
    (h : ph ∈ b.phone_numbers ∨ ph ∈ d.phone_numbers) :
    ∃ ph2 ∈ (mergeCore b d now).phone_numbers, ph2.number = ph.number := by
  rw [mergeCore_phone_numbers]
  rcases h with h | h
  · exact ⟨ph, List.mem_append_left _ h, rfl⟩
  · by_cases hc : (b.phone_numbers.map (fun x => x.number)).contains ph.number
    · have hmem : ph.number ∈ b.phone_numbers.map (fun x => x.number) := by
        simpa using hc
      rcases List.mem_map.mp hmem with ⟨ph2, hph2, heq⟩
      exact ⟨ph2, List.mem_append_left _ hph2, heq⟩
    · refine ⟨ph, List.mem_append_right _ ?_, rfl⟩
      exact List.mem_filter.mpr ⟨h, by simpa using hc⟩

lemma mergeCore_source_mem (b d : Person) (now : Int) (s : PersonSource)
    (h : s ∈ b.sources ∨ s ∈ d.sources) : s ∈ (mergeCore b d now).sources := by
  rw [mergeCore_sources]
  rcases h with h | h
  · exact mem_addAll_fst_left _ _ _ _ _ h
  · exact mem_addAll_fst_right _ _ _ _ _ h

lemma merge_with_source_mem (A B : Person) (now : Int) (s : PersonSource)
    (h : s ∈ A.sources ∨ s ∈ B.sources) : s ∈ (A.merge_with B now).sources := by
  unfold Person.merge_with
  rcases mergeBase_mergeDonor_cases A B with ⟨hb, hd⟩ | ⟨hb, hd⟩ <;>
    rw [hb, hd] <;> exact mergeCore_source_mem _ _ _ _ (by tauto)

/-! ### Sample records used by concrete witnesses -/

/-- A directory-sourced record (priority 100), empty job title. -/
def dirPerson : Person :=
  { id := "jane.doe@acme.com", name := "Jane Doe",
    email_addresses := [{ address := "Jane.Doe@acme.com" }],
    phone_numbers := [{ number := "111" }],
    sources := [.gal], metadata := [("k", "base")] }

/-- An email-history record (priority 60) with a job title and metadata. -/
def histPerson : Person :=
  { id := "jane.doe@acme.com", name := "Jane",
    email_addresses :=
      [{ address := "jane.doe@acme.com" },
       { address := "j@x.com", label := "work", is_primary := false }],
    phone_numbers := [{ number := "222" }],
    sources := [.email_history], job_title := some "Engineer",
    metadata := [("k", "donor"), ("team", "core")] }

/-- Equal-priority record with organization "Org X". -/
def eqPrioX : Person :=
  { id := "p@a.com", name := "PX", email_addresses := [{ address := "p@a.com" }],
    sources := [.gal], organization := some "Org X", metadata := [("k", "x")] }

/-- Equal-priority record with organization "Org Y". -/
def eqPrioY : Person :=
  { id := "p@a.com", name := "PY", email_addresses := [{ address := "p@a.com" }],
    sources := [.gal], organization := some "Org Y", metadata := [("k", "y")] }

/-! ### C1 — merge loses no email, phone or source -/

/-- C1: for valid records A and B (each with at least one email address),
`A.merge_with(B)` contains every email address of either operand
(case-insensitively), every phone number (by exact number string) and every
source tag; nothing is lost. -/
theorem merge_with_preserves_union (A B : Person) (now : Int)
    (hA : A.email_addresses ≠ []) (hB : B.email_addresses ≠ []) :
    (∀ e ∈ A.email_addresses ++ B.email_addresses,
      ∃ e2 ∈ (A.merge_with B now).email_addresses,
        pyLower e2.address = pyLower e.address) ∧
    (∀ ph ∈ A.phone_numbers ++ B.phone_numbers,
      ∃ ph2 ∈ (A.merge_with B now).phone_numbers, ph2.number = ph.number) ∧
    (∀ s ∈ A.sources ++ B.sources, s ∈ (A.merge_with B now).sources) := by
  unfold Person.merge_with
  rcases mergeBase_mergeDonor_cases A B with ⟨hb, hd⟩ | ⟨hb, hd⟩ <;> rw [hb, hd] <;>
    refine ⟨?_, ?_, ?_⟩
  · intro e he
    exact mergeCore_email_mem _ _ _ _ (by rcases List.mem_append.mp he with h | h <;> tauto)
  · intro ph hph
    exact mergeCore_phone_mem _ _ _ _ (by rcases List.mem_append.mp hph with h | h <;> tauto)
  · intro s hs
    exact mergeCore_source_mem _ _ _ _ (by rcases List.mem_append.mp hs with h | h <;> tauto)
  · intro e he
    exact mergeCore_email_mem _ _ _ _ (by rcases List.mem_append.mp he with h | h <;> tauto)
  · intro ph hph
    exact mergeCore_phone_mem _ _ _ _ (by rcases List.mem_append.mp hph with h | h <;> tauto)
  · intro s hs
    exact mergeCore_source_mem _ _ _ _ (by rcases List.mem_append.mp hs with h | h <;> tauto)

/-- Witness for C1 at concrete records. -/
theorem merge_with_preserves_union_witness :
    dirPerson.email_addresses ≠ [] ∧ histPerson.email_addresses ≠ [] ∧
    ∀ s ∈ dirPerson.sources ++ histPerson.sources,
      s ∈ (dirPerson.merge_with histPerson 0).sources :=
  ⟨by decide, by decide,
    (merge_with_preserves_union dirPerson histPerson 0 (by decide) (by decide)).2.2⟩

/-! ### C3 — commutativity of the merge outcome -/

/-- C3 (amended): `merge_with` is commutative in outcome whenever the two
records have *different* source priorities (base and donor are then the same
either way round). With equal priorities the claim fails, see the
counterexample. -/
theorem merge_with_commutative_of_priority_ne (A B : Person) (now : Int)
    (h : A.source_priority ≠ B.source_priority) :
    A.merge_with B now = B.merge_with A now := by
  unfold Person.merge_with mergeBase mergeDonor
  rcases h.lt_or_lt with hlt | hlt
  · rw [if_neg (not_le.mpr hlt), if_neg (not_le.mpr hlt),
      if_pos (le_of_lt hlt), if_pos (le_of_lt hlt)]
  · rw [if_pos (le_of_lt hlt), if_pos (le_of_lt hlt),
      if_neg (not_le.mpr hlt), if_neg (not_le.mpr hlt)]

/-- Witness for C3 at records of different priority (100 vs 60). -/
theorem merge_with_commutative_of_priority_ne_witness :
    dirPerson.source_priority ≠ histPerson.source_priority ∧
    dirPerson.merge_with histPerson 0 = histPerson.merge_with dirPerson 0 :=
  ⟨by decide, merge_with_commutative_of_priority_ne dirPerson histPerson 0 (by decide)⟩

/-- Counterexample to C3 as stated: two records of equal source priority with
conflicting organizations merge to different contents depending on the
operand order (the `self` operand becomes the base either way). -/
theorem merge_with_comm_counterexample :
    (eqPrioX.merge_with eqPrioY 0).organization ≠
      (eqPrioY.merge_with eqPrioX 0).organization ∧
    alookup (eqPrioX.merge_with eqPrioY 0).metadata "k" ≠
      alookup (eqPrioY.merge_with eqPrioX 0).metadata "k" := by
  constructor <;> decide

/-! ### C5 — professional fields: base wins unless empty; metadata: donor wins -/

/-- C5: in `merge_with`, each professional field keeps the base's value
whenever it is non-empty and takes the donor's value exactly when the base's
value is empty/unset and the donor's is not; metadata keys of the donor
overwrite the base's on collision. -/
theorem merge_with_field_precedence (A B : Person) (now : Int) :
    ((truthy (mergeBase A B).organization = true →
        (A.merge_with B now).organization = (mergeBase A B).organization) ∧
     (truthy (mergeBase A B).organization = false →
        truthy (mergeDonor A B).organization = true →
        (A.merge_with B now).organization = (mergeDonor A B).organization) ∧
     (truthy (mergeBase A B).organization = false →
        truthy (mergeDonor A B).organization = false →
        (A.merge_with B now).organization = (mergeBase A B).organization)) ∧
    ((truthy (mergeBase A B).department = true →
        (A.merge_with B now).department = (mergeBase A B).department) ∧
     (truthy (mergeBase A B).department = false →
        truthy (mergeDonor A B).department = true →
        (A.merge_with B now).department = (mergeDonor A B).department) ∧
     (truthy (mergeBase A B).department = false →
        truthy (mergeDonor A B).department = false →
        (A.merge_with B now).department = (mergeBase A B).department)) ∧
    ((truthy (mergeBase A B).job_title = true →
        (A.merge_with B now).job_title = (mergeBase A B).job_title) ∧
     (truthy (mergeBase A B).job_title = false →
        truthy (mergeDonor A B).job_title = true →
        (A.merge_with B now).job_title = (mergeDonor A B).job_title) ∧
     (truthy (mergeBase A B).job_title = false →
        truthy (mergeDonor A B).job_title = false →
        (A.merge_with B now).job_title = (mergeBase A B).job_title)) ∧
    ((truthy (mergeBase A B).office_location = true →
        (A.merge_with B now).office_location = (mergeBase A B).office_location) ∧
     (truthy (mergeBase A B).office_location = false →
        truthy (mergeDonor A B).office_location = true →
        (A.merge_with B now).office_location = (mergeDonor A B).office_location) ∧
     (truthy (mergeBase A B).office_location = false →
        truthy (mergeDonor A B).office_location = false →
        (A.merge_with B now).office_location = (mergeBase A B).office_location)) ∧
    (((mergeDonor A B).metadata.map Prod.fst).Nodup →
      ∀ k v, (k, v) ∈ (mergeDonor A B).metadata →
        alookup (A.merge_with B now).metadata k = some v) := by
  unfold Person.merge_with
  refine ⟨⟨?_, ?_, ?_⟩, ⟨?_, ?_, ?_⟩, ⟨?_, ?_, ?_⟩, ⟨?_, ?_, ?_⟩, ?_⟩
  · intro h
    rw [mergeCore_organization]
    simp [h]
  · intro h h2
    rw [mergeCore_organization]
    simp [h, h2]
  · intro h h2
    rw [mergeCore_organization]
    simp [h, h2]
  · intro h
    rw [mergeCore_department]
    simp [h]
  · intro h h2
    rw [mergeCore_department]
    simp [h, h2]
  · intro h h2
    rw [mergeCore_department]
    simp [h, h2]
  · intro h
    rw [mergeCore_job_title]
    simp [h]
  · intro h h2
    rw [mergeCore_job_title]
    simp [h, h2]
  · intro h h2
    rw [mergeCore_job_title]
    simp [h, h2]
  · intro h
    rw [mergeCore_office_location]
    simp [h]
  · intro h h2
    rw [mergeCore_office_location]
    simp [h, h2]
  · intro h h2
    rw [mergeCore_office_location]
    simp [h, h2]
  · intro hnd k v hkv
    rw [mergeCore_metadata]
    exact alookup_adictUpdate_mem _ _ _ _ hnd hkv

/-- Witness for C5: the spec's scenario — a priority-100 directory record with
empty job title merged with a priority-60 history record whose job title is
"Engineer" yields job title "Engineer"; the donor's metadata value wins. -/
theorem merge_with_field_precedence_witness :
    truthy (mergeBase dirPerson histPerson).job_title = false ∧
    truthy (mergeDonor dirPerson histPerson).job_title = true ∧
    (dirPerson.merge_with histPerson 0).job_title = some "Engineer" ∧
    alookup (dirPerson.merge_with histPerson 0).metadata "k" = some "donor" := by
  have h := merge_with_field_precedence dirPerson histPerson 0
  refine ⟨by decide, by decide, ?_, ?_⟩
  · rw [h.2.2.1.2.1 (by decide) (by decide)]
    decide
  · exact h.2.2.2.2 (by decide) "k" "donor" (by decide)

/-! ### C7 — empty query is rejected at the tool boundary -/

/-- C7: an empty (or missing, which the tool layer defaults to empty) query
string surfaces as a rejected call to the caller instead of performing the
search and returning a result list. -/
theorem find_person_tool_rejects_empty_query (sources : Option (List String))
    (cachedGal : Option (List Person)) (galFetched : Except Unit (List Person))
    (contactsAll : Except Unit (List Contact))
    (inboxItems : Except Unit (List InboxItem))
    (sentItems : Except Unit (List SentItem))
    (include_stats : Bool) (max_results : Nat) (now : Int) :
    findPersonToolExecute "" sources cachedGal galFetched contactsAll inboxItems
      sentItems include_stats max_results now = .error "query is required" := rfl

/-! ### C4 — failure isolation of the three sources -/

/-- Counterexample to C4 as stated: a directory-source fetch exception is
*not* absorbed by `find_person` — `get_or_fetch` re-raises it and the GAL
block has no try/except, so the overall call errors instead of returning the
remaining sources' results. -/
theorem find_person_error_propagation_counterexample :
    findPerson "alice" none none (.error ()) (.ok []) (.ok []) (.ok []) true 50 0 =
      .error () := rfl

/-- C4 (amended): a failure in the contacts or email-history source is caught
inside its fetch helper and treated as zero results from that source, leaving
the result equal to the same call with that source returning nothing; a
directory (GAL) fetch exception, by contrast, propagates out of `find_person`
whenever the GAL source is enabled and the cache has no live entry. -/
theorem find_person_source_failure_isolation (query : String)
    (sources : Option (List String)) (cachedGal : Option (List Person))
    (galFetched : Except Unit (List Person))
    (contactsAll : Except Unit (List Contact))
    (inboxItems : Except Unit (List InboxItem))
    (sentItems : Except Unit (List SentItem))
    (include_stats : Bool) (max_results : Nat) (now : Int) :
    (findPerson query sources cachedGal galFetched (.error ()) inboxItems
        sentItems include_stats max_results now =
      findPerson query sources cachedGal galFetched (.ok []) inboxItems
        sentItems include_stats max_results now) ∧
    (findPerson query sources cachedGal galFetched contactsAll (.error ())
        sentItems include_stats max_results now =
      findPerson query sources cachedGal galFetched contactsAll (.ok [])
        (.ok []) include_stats max_results now) ∧
    (findPerson query sources cachedGal galFetched contactsAll inboxItems
        (.error ()) include_stats max_results now =
      findPerson query sources cachedGal galFetched contactsAll (.ok [])
        (.ok []) include_stats max_results now) ∧
    (sources = none → cachedGal = none →
      findPerson query sources cachedGal (.error ()) contactsAll inboxItems
        sentItems include_stats max_results now = .error ()) := by
  have hc1 : svcSearchContacts query (.error ()) now = [] := rfl
  have hc2 : svcSearchContacts query (.ok []) now = [] := rfl
  have hh1 : searchEmailHistory query include_stats (.error ()) sentItems now = [] := by
    cases sentItems <;> rfl
  have hh2 : searchEmailHistory query include_stats (.ok []) (.ok []) now = [] := rfl
  have hh3 : ∀ s, searchEmailHistory query include_stats s (.error ()) now = [] := by
    intro s
    cases s <;> rfl
  refine ⟨?_, ?_, ?_, ?_⟩
  · simp only [findPerson, findPersonCore, hc1, hc2]
  · simp only [findPerson, findPersonCore, hh1, hh2]
  · simp only [findPerson, findPersonCore, hh3, hh2]
  · intro hs hg
    subst hs
    subst hg
    rfl

/-! ### C8 — provenance tagging in `_merge_results` -/

/-- A GAL-parsed record arriving from the fuzzy strategy (sources `[gal]`). -/
def fuzzyIncoming : Person :=
  { id := "p@a.com", name := "P Fuzzy",
    email_addresses := [{ address := "P@a.com" }], sources := [.gal] }

/-- Counterexample to C8 as stated: when the incoming fuzzy-strategy record
collides with a stored record, the stored value is the merge computed
*before* the provenance tag is added to the (discarded) incoming object, so
the stored merged record does not carry the `fuzzy_match` tag. -/
theorem merge_results_tagging_counterexample :
    alookup (mergeResults 0 [("p@a.com", eqPrioX)] [fuzzyIncoming] "fuzzy") "p@a.com" =
      some (eqPrioX.merge_with fuzzyIncoming 0) ∧
    PersonSource.fuzzy_match ∉ (eqPrioX.merge_with fuzzyIncoming 0).sources := by
  constructor <;> decide

lemma value_ne_strategy (s : PersonSource) :
    s.value ≠ "fuzzy" ∧ s.value ≠ "exact" ∧ s.value ≠ "partial" ∧ s.value ≠ "domain" := by
  cases s <;> refine ⟨?_, ?_, ?_, ?_⟩ <;> decide

lemma add_source_mem_self (p : Person) (s : PersonSource) (now : Int) :
    s ∈ (p.add_source s now).sources := by
  unfold Person.add_source
  by_cases h : s ∈ p.sources
  · simpa [h] using h
  · simp [h]

lemma sources_value_contains_false (l : List PersonSource) (str : String)
    (h : ∀ s : PersonSource, s.value ≠ str) :
    (l.map PersonSource.value).contains str = false := by
  induction l with
  | nil => rfl
  | cons a t ih =>
    simp only [List.map_cons, List.contains_cons, Bool.or_eq_false_iff]
    refine ⟨?_, ih⟩
    simp only [beq_eq_false_iff_ne]
    exact fun hh => h a hh.symm

/-- C8 (amended): in the `_merge_results` accumulation step, on a key
collision the stored record is the merge of the previously stored record with
the incoming one (the strategy tag is added to the incoming object after the
store, so it does not reach the stored merge); on a fresh key the stored
record is the incoming record with the strategy's provenance tag added —
`fuzzy_match` for the fuzzy strategy, the GAL tag for strategies 1–3. -/
theorem merge_results_step_amended (now : Int) (strategy : String)
    (m : List (String × Person)) (person : Person) (e : String)
    (he : person.primary_email = some e) (hne : e.isEmpty = false) :
    (∀ existing, alookup m (pyLower e) = some existing →
      alookup (mergeStep now strategy m person) (pyLower e) =
        some (existing.merge_with person now)) ∧
    (alookup m (pyLower e) = none →
      alookup (mergeStep now strategy m person) (pyLower e) =
        some (tagStrategy person strategy now)) ∧
    (strategy = "fuzzy" →
      PersonSource.fuzzy_match ∈ (tagStrategy person strategy now).sources) ∧
    ((strategy = "exact" ∨ strategy = "partial" ∨ strategy = "domain") →
      PersonSource.gal ∈ (tagStrategy person strategy now).sources) := by
  refine ⟨?_, ?_, ?_, ?_⟩
  · intro existing hex
    simp only [mergeStep, he, hne, Bool.false_eq_true, if_false, hex]
    exact alookup_adictSet_self _ _ _
  · intro hnone
    simp only [mergeStep, he, hne, Bool.false_eq_true, if_false, hnone]
    exact alookup_adictSet_self _ _ _
  · intro hs
    subst hs
    unfold tagStrategy
    rw [sources_value_contains_false person.sources "fuzzy" (fun s => (value_ne_strategy s).1)]
    simp only [Bool.false_eq_true, if_false, if_pos rfl]
    exact add_source_mem_self _ _ _
  · intro hs
    rcases hs with hs | hs | hs <;> subst hs <;> unfold tagStrategy
    · rw [sources_value_contains_false person.sources "exact"
        (fun s => (value_ne_strategy s).2.1)]
      simp only [Bool.false_eq_true, if_false, if_pos rfl]
      exact add_source_mem_self _ _ _
    · rw [sources_value_contains_false person.sources "partial"
        (fun s => (value_ne_strategy s).2.2.1)]
      have hp : ("partial" = "exact") = False := by simp
      simp only [Bool.false_eq_true, if_false, hp, if_pos rfl]
      exact add_source_mem_self _ _ _
    · rw [sources_value_contains_false person.sources "domain"
        (fun s => (value_ne_strategy s).2.2.2)]
      have h1 : ("domain" = "exact") = False := by simp
      have h2 : ("domain" = "partial") = False := by simp
      simp only [Bool.false_eq_true, if_false, h1, h2, if_pos rfl]
      exact add_source_mem_self _ _ _

/-- Witness for the amended C8 at a concrete fresh-key fuzzy insertion. -/
theorem merge_results_step_amended_witness :
    fuzzyIncoming.primary_email = some "P@a.com" ∧
    alookup (mergeStep 0 "fuzzy" [] fuzzyIncoming) "p@a.com" =
      some (tagStrategy fuzzyIncoming "fuzzy" 0) ∧
    PersonSource.fuzzy_match ∈ (tagStrategy fuzzyIncoming "fuzzy" 0).sources := by
  have h := merge_results_step_amended 0 "fuzzy" [] fuzzyIncoming "P@a.com"
    (by decide) (by decide)
  have hp : pyLower "P@a.com" = "p@a.com" := by decide
  have h2 := h.2.1 rfl
  rw [hp] at h2
  exact ⟨by decide, h2, h.2.2.1 rfl⟩

/-! ### C2 — gating of strategies 2 and 4 -/

lemma length_adictSet {β : Type} (m : List (String × β)) (k : String) (v : β) :
    m.length ≤ (adictSet m k v).length := by
  unfold adictSet
  by_cases h : m.any (fun kv => kv.1 = k) <;> simp [h]

lemma length_le_mergeStep (now : Int) (strategy : String) (m : List (String × Person))
    (p : Person) : m.length ≤ (mergeStep now strategy m p).length := by
  unfold mergeStep
  cases hp : p.primary_email with
  | none => exact le_refl _
  | some e =>
    by_cases he : e.isEmpty = true
    · simp [he]
    · simp only [Bool.not_eq_true] at he
      cases ha : alookup m (pyLower e) <;>
        simp [he, ha, length_adictSet]

lemma length_le_mergeResults (now : Int) (l : List Person) (strategy : String) :
    ∀ m, m.length ≤ (mergeResults now m l strategy).length := by
  induction l with
  | nil => exact fun m => le_refl _
  | cons p t ih =>
    intro m
    exact le_trans (length_le_mergeStep now strategy m p) (ih (mergeStep now strategy m p))

lemma accAfter2_length_ge (env : GalEnv) (query : String) (return_full_data : Bool)
    (now : Int) :
    (accAfter1 env query return_full_data now).length ≤
      (accAfter2 env query return_full_data now).length := by
  unfold accAfter2
  by_cases h : (accAfter1 env query return_full_data now).length = 0
  · rw [if_pos h, h]
    exact Nat.zero_le _
  · rw [if_neg h]

lemma accAfter3_length_ge (env : GalEnv) (query : String) (return_full_data : Bool)
    (now : Int) :
    (accAfter2 env query return_full_data now).length ≤
      (accAfter3 env query return_full_data now).length := by
  unfold accAfter3
  by_cases h : query.toList.contains '@'
  · rw [if_pos h]
    exact length_le_mergeResults _ _ _ _
  · rw [if_neg h]

/-- C2: in `GALAdapter.search` (with a positive `max_results`; the default is
50), strategy 2 is attempted iff strategy 1 accumulated zero results, and
strategy 4 (fuzzy) is attempted iff the accumulator is still empty after
strategies 1–3; fuzzy never runs once any earlier strategy contributed. -/
theorem search_strategy_gating (env : GalEnv) (query : String)
    (return_full_data : Bool) (now : Int) (max_results : Nat)
    (h : 1 ≤ max_results) :
    (2 ∈ (searchTrace env query max_results return_full_data now).2 ↔
      (accAfter1 env query return_full_data now).length = 0) ∧
    (4 ∈ (searchTrace env query max_results return_full_data now).2 ↔
      (accAfter3 env query return_full_data now).length = 0) := by
  have hm12 := accAfter2_length_ge env query return_full_data now
  have hm23 := accAfter3_length_ge env query return_full_data now
  simp only [searchTrace]
  by_cases h1 : max_results ≤ (accAfter1 env query return_full_data now).length
  · rw [if_pos h1]
    have hne1 : ¬(accAfter1 env query return_full_data now).length = 0 := by omega
    have hne3 : ¬(accAfter3 env query return_full_data now).length = 0 := by omega
    constructor
    · simp [hne1]
    · simp [hne3]
  · rw [if_neg h1]
    by_cases h2 : max_results ≤ (accAfter2 env query return_full_data now).length
    · rw [if_pos h2]
      have hne3 : ¬(accAfter3 env query return_full_data now).length = 0 := by omega
      constructor
      · by_cases hz : (accAfter1 env query return_full_data now).length = 0 <;>
          simp [hz]
      · by_cases hz : (accAfter1 env query return_full_data now).length = 0 <;>
          simp [hz, hne3]
    · rw [if_neg h2]
      by_cases h3 : max_results ≤ (accAfter3 env query return_full_data now).length
      · rw [if_pos h3]
        have hne3 : ¬(accAfter3 env query return_full_data now).length = 0 := by omega
        constructor
        · by_cases hz : (accAfter1 env query return_full_data now).length = 0 <;>
            by_cases hq : '@' ∈ query.data <;> simp [hz, hq]
        · by_cases hz : (accAfter1 env query return_full_data now).length = 0 <;>
            by_cases hq : '@' ∈ query.data <;> simp [hz, hq, hne3]
      · rw [if_neg h3]
        constructor
        · by_cases hz : (accAfter1 env query return_full_data now).length = 0 <;>
            by_cases hq : '@' ∈ query.data <;>
            by_cases hz3 : (accAfter3 env query return_full_data now).length = 0 <;>
            simp [hz, hq, hz3]
        · by_cases hz : (accAfter1 env query return_full_data now).length = 0 <;>
            by_cases hq : '@' ∈ query.data <;>
            by_cases hz3 : (accAfter3 env query return_full_data now).length = 0 <;>
            simp [hz, hq, hz3]

/-! ### C6 — the ranking function and its stable descending sort -/

/-- Match-bonus component of `calculate_score`. -/
def scoreMatch (query : String) (person : Person) : Rat :=
  if truthy person.primary_email = true ∧
     pyLower query = pyLower ((person.primary_email).getD "") then 100
  else if pyIn (pyLower query) (pyLower person.name) then 50
  else 0

/-- Communication-volume component of `calculate_score`. -/
def scoreVolume (person : Person) : Rat :=
  match person.communication_stats with
  | some st => ((min st.total_emails 50 : Int) : Rat)
  | none => 0

/-- Recency component of `calculate_score`. -/
def scoreRecency (now : Int) (person : Person) : Rat :=
  match person.communication_stats with
  | none => 0
  | some st =>
    match st.last_contact with
    | none => 0
    | some lc =>
      let days_ago : Int := now - lc
      max 0 (30 * (1 - (days_ago : Rat) / 365))

/-- VIP component of `calculate_score`. -/
def scoreVip (person : Person) : Rat :=
  if person.is_vip then 20 else 0

/-- Completeness component of `calculate_score`. -/
def scoreCompleteness (person : Person) : Rat :=
  (if truthy person.job_title then (5 : Rat) else 0) +
  (if truthy person.department then 5 else 0) +
  (if truthy person.organization then 5 else 0) +
  (if 0 < person.phone_numbers.length then 5 else 0)

/-- Match bonus as the specification words it: +100 when the lower-cased
query equals the lower-cased primary email, else +50 on a name substring. -/
def specMatch (query : String) (p : Person) : Rat :=
  match p.primary_email with
  | some pe =>
    if pyLower query = pyLower pe then 100
    else if pyIn (pyLower query) (pyLower p.name) then 50 else 0
  | none => if pyIn (pyLower query) (pyLower p.name) then 50 else 0

/-- The ranking formula as the specification words it (sum of the six terms). -/
def specScore (query : String) (now : Int) (p : Person) : Rat :=
  (p.source_priority : Rat) + specMatch query p +
  scoreVolume p + scoreRecency now p + scoreVip p + scoreCompleteness p

lemma scoreMatch_eq_specMatch (query : String) (p : Person)
    (hp : p.primary_email ≠ some "") :
    scoreMatch query p = specMatch query p := by
  unfold scoreMatch specMatch
  cases hpe : p.primary_email with
  | none => simp [truthy]
  | some pe =>
    have hne : pe.isEmpty = false := by
      rw [← Bool.not_eq_true]
      intro he
      exact hp (by rw [hpe, (String.isEmpty_iff pe).mp he])
    by_cases hq : pyLower query = pyLower pe
    · simp [truthy, hne, hq]
    · simp [truthy, hne, hq]

lemma calculateScore_decompose (query : String) (now : Int) (p : Person) :
    calculateScore query now p =
      (p.source_priority : Rat) + scoreMatch query p + scoreVolume p +
        scoreRecency now p + scoreVip p + scoreCompleteness p := rfl

lemma insertDesc_perm {α : Type} (f : α → Rat) (x : α) (m : List α) :
    (insertDesc f x m).Perm (x :: m) := by
  induction m with
  | nil => exact List.Perm.refl _
  | cons y ys ih =>
    unfold insertDesc
    by_cases h : f y ≤ f x
    · rw [if_pos h]
    · rw [if_neg h]
      exact (ih.cons y).trans (List.Perm.swap x y ys)

lemma sortDesc_perm {α : Type} (f : α → Rat) (l : List α) :
    (sortDesc f l).Perm l := by
  induction l with
  | nil => exact List.Perm.refl _
  | cons x xs ih =>
    exact (insertDesc_perm f x (sortDesc f xs)).trans (ih.cons x)

lemma insertDesc_pairwise {α : Type} (f : α → Rat) (x : α) (m : List α)
    (h : m.Pairwise (fun a b => f b ≤ f a)) :
    (insertDesc f x m).Pairwise (fun a b => f b ≤ f a) := by
  induction m with
  | nil => simp [insertDesc]
  | cons y ys ih =>
    rcases List.pairwise_cons.mp h with ⟨hy, hys⟩
    unfold insertDesc
    by_cases hle : f y ≤ f x
    · rw [if_pos hle]
      refine List.pairwise_cons.mpr ⟨?_, h⟩
      intro z hz
      rcases List.mem_cons.mp hz with rfl | hz'
      · exact hle
      · exact le_trans (hy z hz') hle
    · rw [if_neg hle]
      refine List.pairwise_cons.mpr ⟨?_, ih hys⟩
      intro z hz
      have hz2 : z ∈ x :: ys := (insertDesc_perm f x ys).mem_iff.mp hz
      rcases List.mem_cons.mp hz2 with rfl | hz'
      · exact le_of_lt (lt_of_not_le hle)
      · exact hy z hz'

lemma sortDesc_pairwise {α : Type} (f : α → Rat) (l : List α) :
    (sortDesc f l).Pairwise (fun a b => f b ≤ f a) := by
  induction l with
  | nil => exact List.Pairwise.nil
  | cons x xs ih => exact insertDesc_pairwise f x _ ih

lemma filter_insertDesc_eq {α : Type} (f : α → Rat) (s : Rat) (x : α) (m : List α)
    (hx : f x = s) :
    (insertDesc f x m).filter (fun a => decide (f a = s)) =
      x :: m.filter (fun a => decide (f a = s)) := by
  induction m with
  | nil => simp [insertDesc, hx]
  | cons y ys ih =>
    unfold insertDesc
    by_cases hle : f y ≤ f x
    · rw [if_pos hle]
      simp [List.filter_cons, hx]
    · rw [if_neg hle]
      have hy : ¬ f y = s := by
        intro he
        exact hle (le_of_eq (he.trans hx.symm))
      simp [List.filter_cons, hy, ih]

lemma filter_insertDesc_ne {α : Type} (f : α → Rat) (s : Rat) (x : α) (m : List α)
    (hx : ¬ f x = s) :
    (insertDesc f x m).filter (fun a => decide (f a = s)) =
      m.filter (fun a => decide (f a = s)) := by
  induction m with
  | nil => simp [insertDesc, hx]
  | cons y ys ih =>
    unfold insertDesc
    by_cases hle : f y ≤ f x
    · rw [if_pos hle]
      simp [List.filter_cons, hx]
    · rw [if_neg hle]
      simp [List.filter_cons, ih]

lemma filter_sortDesc {α : Type} (f : α → Rat) (s : Rat) (l : List α) :
    (sortDesc f l).filter (fun a => decide (f a = s)) =
      l.filter (fun a => decide (f a = s)) := by
  induction l with
  | nil => rfl
  | cons x xs ih =>
    show (insertDesc f x (sortDesc f xs)).filter _ = _
    by_cases hx : f x = s
    · rw [filter_insertDesc_eq f s x _ hx, ih]
      simp [List.filter_cons, hx]
    · rw [filter_insertDesc_ne f s x _ hx, ih]
      simp [List.filter_cons, hx]

/-- C6: `_rank_persons` sorts by the documented score, descending, with a
stable sort: the output is a permutation of the input, sorted descending by
`calculate_score`; records of any fixed score keep their relative input
order; the score agrees with the specification's formula; and an exact
primary-email match outranks a mere name-substring match, all else equal. -/
theorem rank_persons_spec (persons : List Person) (query : String) (now : Int) :
    (rankPersons persons query now).Perm persons ∧
    (rankPersons persons query now).Pairwise
      (fun a b => calculateScore query now b ≤ calculateScore query now a) ∧
    (∀ s : Rat,
      (rankPersons persons query now).filter
        (fun p => decide (calculateScore query now p = s)) =
      persons.filter (fun p => decide (calculateScore query now p = s))) ∧
    (∀ p : Person, p.primary_email ≠ some "" →
      calculateScore query now p = specScore query now p) ∧
    (∀ p1 p2 : Person,
      truthy p1.primary_email = true →
      pyLower query = pyLower ((p1.primary_email).getD "") →
      ¬(truthy p2.primary_email = true ∧
        pyLower query = pyLower ((p2.primary_email).getD "")) →
      pyIn (pyLower query) (pyLower p2.name) = true →
      p1.source_priority = p2.source_priority →
      p1.communication_stats = p2.communication_stats →
      p1.is_vip = p2.is_vip →
      truthy p1.job_title = truthy p2.job_title →
      truthy p1.department = truthy p2.department →
      truthy p1.organization = truthy p2.organization →
      ((0 < p1.phone_numbers.length) ↔ (0 < p2.phone_numbers.length)) →
      calculateScore query now p2 < calculateScore query now p1) := by
  refine ⟨sortDesc_perm _ _, sortDesc_pairwise _ _, fun s => filter_sortDesc _ s _,
    ?_, ?_⟩
  · intro p hp
    rw [calculateScore_decompose]
    unfold specScore
    rw [scoreMatch_eq_specMatch query p hp]
  · intro p1 p2 h1e h1m h2m h2n hpr hcs hvip hjob hdept horg hphone
    rw [calculateScore_decompose, calculateScore_decompose]
    have hm1 : scoreMatch query p1 = 100 := by
      unfold scoreMatch
      rw [if_pos ⟨h1e, h1m⟩]
    have hm2 : scoreMatch query p2 = 50 := by
      unfold scoreMatch
      rw [if_neg h2m, if_pos h2n]
    have hv : scoreVolume p1 = scoreVolume p2 := by
      unfold scoreVolume
      rw [hcs]
    have hr : scoreRecency now p1 = scoreRecency now p2 := by
      unfold scoreRecency
      rw [hcs]
    have hvp : scoreVip p1 = scoreVip p2 := by
      unfold scoreVip
      rw [hvip]
    have hc : scoreCompleteness p1 = scoreCompleteness p2 := by
      unfold scoreCompleteness
      rw [hjob, hdept, horg, if_congr hphone rfl rfl]
    rw [hm1, hm2, hv, hr, hvp, hc, hpr]
    linarith

/-- A record whose primary email is exactly the query. -/
def pExact : Person :=
  { id := "q@a.com", name := "Q Person",
    email_addresses := [{ address := "q@a.com" }], sources := [.gal] }

/-- A record that merely contains the query in its name. -/
def pName : Person :=
  { id := "other@a.com", name := "team q@a.com inbox",
    email_addresses := [{ address := "other@a.com" }], sources := [.gal] }

/-- Witness for C6: the formula agreement and the exact-beats-substring
ordering at concrete records, plus the resulting concrete ranking. -/
theorem rank_persons_spec_witness :
    calculateScore "q@a.com" 0 pExact = specScore "q@a.com" 0 pExact ∧
    calculateScore "q@a.com" 0 pName < calculateScore "q@a.com" 0 pExact ∧
    rankPersons [pName, pExact] "q@a.com" 0 = [pExact, pName] := by
  have h := rank_persons_spec [pName, pExact] "q@a.com" 0
  refine ⟨h.2.2.2.1 pExact (by decide), ?_, by with_unfolding_all decide⟩
  exact h.2.2.2.2 pExact pName (by decide) (by decide) (by decide) (by decide)
    (by decide) (by decide) (by decide) (by decide) (by decide) (by decide)
    (by decide)

/-! ### Concrete environment for adapter witnesses -/

/-- A directory environment where the exact query "Ahmed" resolves to nothing
but the wildcard "Ahmed*" resolves to one mailbox. -/
def sampleGalEnv : GalEnv :=
  { resolve := fun q _ =>
      if q = "Ahmed*" then
        .ok [.tup { email_address := some "ahmed@acme.com",
                    name := some "Ahmed Al-Rashid" } none]
      else .ok [],
    contactsAll := .ok [],
    similarity := fun _ _ => 1 }

/-- Witness for C2: with "Ahmed", strategy 1 accumulates zero results, so
strategy 2 is attempted; strategies 1–3 leave one result, so fuzzy is not. -/
theorem search_strategy_gating_witness :
    (accAfter1 sampleGalEnv "Ahmed" true 0).length = 0 ∧
    2 ∈ (searchTrace sampleGalEnv "Ahmed" 50 true 0).2 ∧
    4 ∉ (searchTrace sampleGalEnv "Ahmed" 50 true 0).2 := by
  have h := search_strategy_gating sampleGalEnv "Ahmed" true 0 50 (by decide)
  refine ⟨by decide, h.1.mpr (by decide), fun hmem => ?_⟩
  have h3 := h.2.mp hmem
  revert h3
  decide

/-- Witness for C4 at concrete arguments: a contacts failure leaves the
result unchanged, while a GAL fetch failure makes the whole call error. -/
theorem find_person_source_failure_isolation_witness :
    (findPerson "bob" none none (.ok []) (.error ()) (.ok []) (.ok []) true 50 0 =
      findPerson "bob" none none (.ok []) (.ok []) (.ok []) (.ok []) true 50 0) ∧
    findPerson "bob" none none (.error ()) (.ok []) (.ok []) (.ok []) true 50 0 =
      .error () :=
  ⟨(find_person_source_failure_isolation "bob" none none (.ok []) (.ok [])
      (.ok []) (.ok []) true 50 0).1,
   (find_person_source_failure_isolation "bob" none none (.error ()) (.ok [])
      (.ok []) (.ok []) true 50 0).2.2.2 rfl rfl⟩

/-! ### C9 — fuzzy results carry the GAL tag; never priority 20 -/

/-- The record carries a directory or personal-contacts tag. -/
def hasDirTag (p : Person) : Prop :=
  PersonSource.gal ∈ p.sources ∨ PersonSource.contacts ∈ p.sources

lemma from_gal_result_sources (mb : Mailbox) (ci : Option ContactInfo) (now : Int)
    (p : Person) (h : Person.from_gal_result mb ci now = .ok p) :
    p.sources = [.gal] := by
  unfold Person.from_gal_result at h
  repeat' split at h
  all_goals first
    | exact Except.noConfusion h
    | (injection h with h2
       subst h2
       rfl)

lemma from_contact_sources (c : Contact) (now : Int) (p : Person)
    (h : Person.from_contact c now = .ok p) : p.sources = [.contacts] := by
  unfold Person.from_contact at h
  repeat' split at h
  all_goals first
    | exact Except.noConfusion h
    | (injection h with h2
       subst h2
       rfl)

lemma parseResolveResult_sources (r : ResolveResult) (full : Bool) (now : Int)
    (p : Person) (h : parseResolveResult r full now = some p) :
    p.sources = [.gal] := by
  cases r with
  | tup mb c =>
    have h2 : (Person.from_gal_result mb (if full then c else none) now).toOption =
        some p := h
    cases hfg : Person.from_gal_result mb (if full then c else none) now with
    | error e =>
      rw [hfg] at h2
      exact Option.noConfusion h2
    | ok q =>
      rw [hfg] at h2
      have hqp : q = p := by simpa [Except.toOption] using h2
      subst hqp
      exact from_gal_result_sources _ _ _ _ hfg
  | obj mb c =>
    have h2 : (Person.from_gal_result mb (if full then c else none) now).toOption =
        some p := h
    cases hfg : Person.from_gal_result mb (if full then c else none) now with
    | error e =>
      rw [hfg] at h2
      exact Option.noConfusion h2
    | ok q =>
      rw [hfg] at h2
      have hqp : q = p := by simpa [Except.toOption] using h2
      subst hqp
      exact from_gal_result_sources _ _ _ _ hfg
  | unknown => exact Option.noConfusion h

lemma searchExact_sources (env : GalEnv) (q : String) (full : Bool) (now : Int)
    (p : Person) (h : p ∈ searchExact env q full now) : p.sources = [.gal] := by
  unfold searchExact at h
  split at h
  · cases h
  · rename_i results heq
    by_cases hres : results.isEmpty = true
    · rw [if_pos hres] at h
      cases h
    · rw [if_neg hres] at h
      rcases List.mem_filterMap.mp h with ⟨r, _, hpr⟩
      exact parseResolveResult_sources _ _ _ _ hpr

lemma searchContactsFolder_sources (env : GalEnv) (q : String) (now : Int)
    (p : Person) (h : p ∈ searchContactsFolder env q now) :
    p.sources = [.contacts] := by
  unfold searchContactsFolder at h
  split at h
  · exact absurd h (by simp)
  · rcases List.mem_filterMap.mp h with ⟨contact, _, hpr⟩
    try dsimp only at hpr
    split at hpr
    · cases hto : Person.from_contact contact now with
      | error e =>
        rw [hto] at hpr
        exact Option.noConfusion hpr
      | ok q2 =>
        rw [hto] at hpr
        have hqp : q2 = p := by simpa [Except.toOption] using hpr
        subst hqp
        exact from_contact_sources _ _ _ hto
    · exact Option.noConfusion hpr

lemma mem_wildcardCombine (a b : List Person) (p : Person)
    (h : p ∈ wildcardCombine a b) : p ∈ a ∨ p ∈ b := by
  unfold wildcardCombine at h
  split at h
  · exact Or.inl h
  · split at h
    · exact Or.inr h
    · cases h

lemma searchWildcard_sources (env : GalEnv) (q : String) (full : Bool) (now : Int)
    (p : Person) (h : p ∈ searchWildcard env q full now) :
    p.sources = [.gal] ∨ p.sources = [.contacts] := by
  unfold searchWildcard at h
  split at h
  · cases h
  · rename_i results heq
    rcases mem_wildcardCombine _ _ _ h with h3 | h3
    · by_cases hres : results.isEmpty = true
      · rw [if_pos hres] at h3
        cases h3
      · rw [if_neg hres] at h3
        rcases List.mem_filterMap.mp h3 with ⟨r, _, hpr⟩
        exact Or.inl (parseResolveResult_sources _ _ _ _ hpr)
    · exact Or.inr (searchContactsFolder_sources _ _ _ _ h3)

lemma searchDomain_sources (env : GalEnv) (d : String) (full : Bool) (now : Int)
    (p : Person) (h : p ∈ searchDomain env d full now) : p.sources = [.gal] := by
  unfold searchDomain at h
  split at h
  · cases h
  · rename_i results heq
    by_cases hres : results.isEmpty = true
    · rw [if_pos hres] at h
      cases h
    · rw [if_neg hres] at h
      rcases List.mem_filterMap.mp h with ⟨r, _, hpr⟩
      have hpr2 : (match parseResolveResult r full now with
          | none => none
          | some person =>
            match person.primary_email with
            | none => none
            | some pe =>
              if !pe.isEmpty && pyEndsWith pe ("@" ++ d) then some person
              else none) = some p := hpr
      cases hpp : parseResolveResult r full now with
      | none =>
        rw [hpp] at hpr2
        exact Option.noConfusion hpr2
      | some person =>
        rw [hpp] at hpr2
        have hpr3 : (match person.primary_email with
            | none => none
            | some pe =>
              if !pe.isEmpty && pyEndsWith pe ("@" ++ d) then some person
              else none) = some p := hpr2
        cases hpe : person.primary_email with
        | none =>
          rw [hpe] at hpr3
          exact Option.noConfusion hpr3
        | some pe =>
          rw [hpe] at hpr3
          have hpr4 : (if !pe.isEmpty && pyEndsWith pe ("@" ++ d) then some person
              else none) = some p := hpr3
          by_cases hcond : (!pe.isEmpty && pyEndsWith pe ("@" ++ d)) = true
          · rw [if_pos hcond] at hpr4
            have hp2 : person = p := Option.some.inj hpr4
            subst hp2
            exact parseResolveResult_sources _ _ _ _ hpp
          · rw [if_neg hcond] at hpr4
            exact Option.noConfusion hpr4

lemma fuzzyPool_sources_aux (env : GalEnv) (now : Int) (letters : List String) :
    ∀ acc, (∀ x ∈ acc, x.sources = [.gal]) →
      ∀ p ∈ letters.foldl (fun acc letter =>
        match env.resolve letter false with
        | .error _ => acc
        | .ok results =>
          if results.isEmpty then acc
          else acc ++ (results.take 10).filterMap
            (fun r => parseResolveResult r false now)) acc,
        p.sources = [.gal] := by
  induction letters with
  | nil => exact fun acc hacc p hp => hacc p hp
  | cons letter t ih =>
    intro acc hacc p hp
    refine ih (match env.resolve letter false with
      | .error _ => acc
      | .ok results =>
        if results.isEmpty then acc
        else acc ++ (results.take 10).filterMap
          (fun r => parseResolveResult r false now)) ?_ p hp
    intro x hx
    cases hr : env.resolve letter false with
    | error e =>
      rw [hr] at hx
      exact hacc x hx
    | ok results =>
      rw [hr] at hx
      have hx2 : x ∈ (if results.isEmpty = true then acc
          else acc ++ (results.take 10).filterMap
            (fun r => parseResolveResult r false now)) := hx
      by_cases hres : results.isEmpty = true
      · rw [if_pos hres] at hx2
        exact hacc x hx2
      · rw [if_neg hres] at hx2
        rcases List.mem_append.mp hx2 with h1 | h1
        · exact hacc x h1
        · rcases List.mem_filterMap.mp h1 with ⟨r, _, hpr⟩
          exact parseResolveResult_sources _ _ _ _ hpr

lemma fuzzyPool_sources (env : GalEnv) (now : Int) :
    ∀ p ∈ fuzzyPool env now, p.sources = [.gal] :=
  fun p hp => fuzzyPool_sources_aux env now fuzzyLetters [] (by simp) p hp

lemma searchFuzzy_sources (env : GalEnv) (q : String) (now : Int) (p : Person)
    (h : p ∈ searchFuzzy env q now) : p.sources = [.gal] := by
  unfold searchFuzzy at h
  by_cases hemp : (fuzzyPool env now).isEmpty = true
  · rw [if_pos hemp] at h
    cases h
  · rw [if_neg hemp] at h
    rcases List.mem_map.mp h with ⟨sp, hsp, hspe⟩
    have hsp2 := (sortDesc_perm (fun sp : Rat × Person => sp.1) _).mem_iff.mp
      (List.mem_of_mem_take hsp)
    rcases List.mem_filterMap.mp hsp2 with ⟨person, hperson, hpr⟩
    have hpr2 : (if (6 : Rat) / 10 ≤ fuzzyScore env (pyLower q) person then
        some (fuzzyScore env (pyLower q) person, person) else none) = some sp := hpr
    by_cases hcond : (6 : Rat) / 10 ≤ fuzzyScore env (pyLower q) person
    · rw [if_pos hcond] at hpr2
      have h2 := Option.some.inj hpr2
      have hp3 : person = p := by
        rw [← hspe, ← h2]
      subst hp3
      exact fuzzyPool_sources env now person hperson
    · rw [if_neg hcond] at hpr2
      exact Option.noConfusion hpr2

lemma alookup_mem {β : Type} (m : List (String × β)) (k : String) (v : β)
    (h : alookup m k = some v) : (k, v) ∈ m := by
  induction m with
  | nil => exact Option.noConfusion h
  | cons kv t ih =>
    obtain ⟨k1, v1⟩ := kv
    have h2 : (if k1 = k then some v1 else alookup t k) = some v := h
    by_cases hk : k1 = k
    · rw [if_pos hk] at h2
      subst hk
      rw [Option.some.inj h2]
      exact List.mem_cons_self _ _
    · rw [if_neg hk] at h2
      exact List.mem_cons_of_mem _ (ih h2)

lemma mem_adictSet_cases {β : Type} (m : List (String × β)) (k : String) (v : β)
    (kv : String × β) (h : kv ∈ adictSet m k v) : kv = (k, v) ∨ kv ∈ m := by
  unfold adictSet at h
  by_cases hany : m.any (fun x => x.1 = k) = true
  · rw [if_pos hany] at h
    rcases List.mem_map.mp h with ⟨x, hx, hxe⟩
    by_cases hk : x.1 = k
    · rw [if_pos hk] at hxe
      exact Or.inl hxe.symm
    · rw [if_neg hk] at hxe
      exact Or.inr (hxe ▸ hx)
  · rw [if_neg hany] at h
    rcases List.mem_append.mp h with h1 | h1
    · exact Or.inr h1
    · exact Or.inl (by simpa using h1)

lemma add_source_mem_keep (p : Person) (s t : PersonSource) (now : Int)
    (h : s ∈ p.sources) : s ∈ (p.add_source t now).sources := by
  unfold Person.add_source
  by_cases ht : t ∈ p.sources
  · rw [if_pos ht]
    exact h
  · rw [if_neg ht]
    exact List.mem_append_left _ h

lemma tagStrategy_hasDirTag (p : Person) (strat : String) (now : Int)
    (h : hasDirTag p) : hasDirTag (tagStrategy p strat now) := by
  unfold tagStrategy
  split_ifs <;>
    first
      | exact h
      | (rcases h with h1 | h1
         · exact Or.inl (add_source_mem_keep _ _ _ _ h1)
         · exact Or.inr (add_source_mem_keep _ _ _ _ h1))

lemma merge_with_hasDirTag (a b : Person) (now : Int)
    (h : hasDirTag a ∨ hasDirTag b) : hasDirTag (a.merge_with b now) := by
  rcases h with (h1 | h1) | (h1 | h1)
  · exact Or.inl (merge_with_source_mem _ _ _ _ (Or.inl h1))
  · exact Or.inr (merge_with_source_mem _ _ _ _ (Or.inl h1))
  · exact Or.inl (merge_with_source_mem _ _ _ _ (Or.inr h1))
  · exact Or.inr (merge_with_source_mem _ _ _ _ (Or.inr h1))

lemma mergeStep_hasDirTag (now : Int) (strat : String) (m : List (String × Person))
    (person : Person) (hm : ∀ kv ∈ m, hasDirTag kv.2) (hp : hasDirTag person) :
    ∀ kv ∈ mergeStep now strat m person, hasDirTag kv.2 := by
  intro kv hkv
  unfold mergeStep at hkv
  cases hpe : person.primary_email with
  | none =>
    rw [hpe] at hkv
    exact hm kv hkv
  | some e =>
    rw [hpe] at hkv
    have hkv2 : kv ∈ (if e.isEmpty = true then m
        else match alookup m (pyLower e) with
          | some existing => adictSet m (pyLower e) (existing.merge_with person now)
          | none => adictSet m (pyLower e) (tagStrategy person strat now)) := hkv
    by_cases he : e.isEmpty = true
    · rw [if_pos he] at hkv2
      exact hm kv hkv2
    · rw [if_neg he] at hkv2
      cases ha : alookup m (pyLower e) with
      | some existing =>
        rw [ha] at hkv2
        have hkv3 : kv ∈ adictSet m (pyLower e) (existing.merge_with person now) := hkv2
        rcases mem_adictSet_cases _ _ _ _ hkv3 with h1 | h1
        · rw [h1]
          exact merge_with_hasDirTag _ _ _
            (Or.inl (hm (pyLower e, existing) (alookup_mem _ _ _ ha)))
        · exact hm kv h1
      | none =>
        rw [ha] at hkv2
        have hkv3 : kv ∈ adictSet m (pyLower e) (tagStrategy person strat now) := hkv2
        rcases mem_adictSet_cases _ _ _ _ hkv3 with h1 | h1
        · rw [h1]
          exact tagStrategy_hasDirTag _ _ _ hp
        · exact hm kv h1

lemma mergeResults_hasDirTag (now : Int) (strat : String) (l : List Person)
    (hl : ∀ p ∈ l, hasDirTag p) :
    ∀ m, (∀ kv ∈ m, hasDirTag kv.2) →
      ∀ kv ∈ mergeResults now m l strat, hasDirTag kv.2 := by
  induction l with
  | nil => exact fun m hm => hm
  | cons p t ih =>
    intro m hm
    exact ih (fun x hx => hl x (List.mem_cons_of_mem _ hx))
      (mergeStep now strat m p)
      (mergeStep_hasDirTag now strat m p hm (hl p (List.mem_cons_self _ _)))

lemma gal_sources_hasDirTag (p : Person) (h : p.sources = [.gal]) : hasDirTag p :=
  Or.inl (by rw [h]; exact List.mem_singleton.mpr rfl)

lemma contacts_sources_hasDirTag (p : Person) (h : p.sources = [.contacts]) :
    hasDirTag p :=
  Or.inr (by rw [h]; exact List.mem_singleton.mpr rfl)

lemma accAfter1_hasDirTag (env : GalEnv) (q : String) (full : Bool) (now : Int) :
    ∀ kv ∈ accAfter1 env q full now, hasDirTag kv.2 := by
  unfold accAfter1
  exact mergeResults_hasDirTag _ _ _
    (fun p hp => gal_sources_hasDirTag p (searchExact_sources _ _ _ _ _ hp))
    [] (by simp)

lemma accAfter2_hasDirTag (env : GalEnv) (q : String) (full : Bool) (now : Int) :
    ∀ kv ∈ accAfter2 env q full now, hasDirTag kv.2 := by
  unfold accAfter2
  by_cases h : (accAfter1 env q full now).length = 0
  · rw [if_pos h]
    exact mergeResults_hasDirTag _ _ _
      (fun p hp => by
        rcases searchWildcard_sources _ _ _ _ _ hp with h1 | h1
        · exact gal_sources_hasDirTag p h1
        · exact contacts_sources_hasDirTag p h1)
      _ (accAfter1_hasDirTag env q full now)
  · rw [if_neg h]
    exact accAfter1_hasDirTag env q full now

lemma accAfter3_hasDirTag (env : GalEnv) (q : String) (full : Bool) (now : Int) :
    ∀ kv ∈ accAfter3 env q full now, hasDirTag kv.2 := by
  unfold accAfter3
  by_cases h : q.toList.contains '@' = true
  · rw [if_pos h]
    exact mergeResults_hasDirTag _ _ _
      (fun p hp => gal_sources_hasDirTag p (searchDomain_sources _ _ _ _ _ hp))
      _ (accAfter2_hasDirTag env q full now)
  · rw [if_neg h]
    exact accAfter2_hasDirTag env q full now

lemma accAfter4_hasDirTag (env : GalEnv) (q : String) (full : Bool) (now : Int) :
    ∀ kv ∈ accAfter4 env q full now, hasDirTag kv.2 := by
  unfold accAfter4
  by_cases h : (accAfter3 env q full now).length = 0
  · rw [if_pos h]
    exact mergeResults_hasDirTag _ _ _
      (fun p hp => gal_sources_hasDirTag p (searchFuzzy_sources _ _ _ _ hp))
      _ (accAfter3_hasDirTag env q full now)
  · rw [if_neg h]
    exact accAfter3_hasDirTag env q full now

lemma galSearch_hasDirTag (env : GalEnv) (q : String) (max_results : Nat)
    (full : Bool) (now : Int) :
    ∀ p ∈ galSearch env q max_results full now, hasDirTag p := by
  intro p hp
  unfold galSearch searchTrace at hp
  by_cases h1 : max_results ≤ (accAfter1 env q full now).length
  · rw [if_pos h1] at hp
    rcases List.mem_map.mp (List.mem_of_mem_take hp) with ⟨kv, hkv, rfl⟩
    exact accAfter1_hasDirTag env q full now kv hkv
  · rw [if_neg h1] at hp
    by_cases h2 : max_results ≤ (accAfter2 env q full now).length
    · rw [if_pos h2] at hp
      rcases List.mem_map.mp (List.mem_of_mem_take hp) with ⟨kv, hkv, rfl⟩
      exact accAfter2_hasDirTag env q full now kv hkv
    · rw [if_neg h2] at hp
      by_cases h3 : max_results ≤ (accAfter3 env q full now).length
      · rw [if_pos h3] at hp
        rcases List.mem_map.mp (List.mem_of_mem_take hp) with ⟨kv, hkv, rfl⟩
        exact accAfter3_hasDirTag env q full now kv hkv
      · rw [if_neg h3] at hp
        rcases List.mem_map.mp (List.mem_of_mem_take hp) with ⟨kv, hkv, rfl⟩
        exact accAfter4_hasDirTag env q full now kv hkv

lemma foldl_max_le (l : List Int) (a c : Int) (ha : a ≤ c) (h : ∀ x ∈ l, x ≤ c) :
    l.foldl max a ≤ c := by
  induction l generalizing a with
  | nil => exact ha
  | cons y t ih =>
    exact ih (max a y) (max_le ha (h y (List.mem_cons_self _ _)))
      (fun x hx => h x (List.mem_cons_of_mem _ hx))

lemma le_foldl_max (l : List Int) (a : Int) :
    a ≤ l.foldl max a ∧ ∀ x ∈ l, x ≤ l.foldl max a := by
  induction l generalizing a with
  | nil => exact ⟨le_refl _, by simp⟩
  | cons y t ih =>
    rcases ih (max a y) with ⟨h1, h2⟩
    refine ⟨le_trans (le_max_left a y) h1, ?_⟩
    intro x hx
    rcases List.mem_cons.mp hx with rfl | hx2
    · exact le_trans (le_max_right a x) h1
    · exact h2 x hx2

lemma sourcePriorityValue_le_100 (s : PersonSource) : sourcePriorityValue s ≤ 100 := by
  cases s <;> decide

lemma source_priority_eq_fold (p : Person) (h : p.sources ≠ []) :
    p.source_priority = (p.sources.map sourcePriorityValue).foldl max 0 := by
  unfold Person.source_priority
  cases hs : p.sources with
  | nil => exact absurd hs h
  | cons a t => rfl

lemma le_source_priority (p : Person) (s : PersonSource) (h : s ∈ p.sources) :
    sourcePriorityValue s ≤ p.source_priority := by
  have hne : p.sources ≠ [] := by
    intro he
    rw [he] at h
    cases h
  rw [source_priority_eq_fold p hne]
  exact (le_foldl_max _ 0).2 _ (List.mem_map.mpr ⟨s, h, rfl⟩)

lemma source_priority_eq_100_of_gal (p : Person) (h : PersonSource.gal ∈ p.sources) :
    p.source_priority = 100 := by
  have hne : p.sources ≠ [] := by
    intro he
    rw [he] at h
    cases h
  have h1 : (100 : Int) ≤ p.source_priority := by
    have := le_source_priority p .gal h
    simpa [sourcePriorityValue] using this
  have h2 : p.source_priority ≤ 100 := by
    rw [source_priority_eq_fold p hne]
    refine foldl_max_le _ 0 100 (by norm_num) ?_
    intro x hx
    rcases List.mem_map.mp hx with ⟨s, _, rfl⟩
    exact sourcePriorityValue_le_100 s
  exact le_antisymm h2 h1

lemma hasDirTag_priority_ne_20 (p : Person) (h : hasDirTag p) :
    p.source_priority ≠ 20 := by
  have h80 : (80 : Int) ≤ p.source_priority := by
    rcases h with h1 | h1
    · have := le_source_priority p .gal h1
      simp only [sourcePriorityValue] at this
      omega
    · have := le_source_priority p .contacts h1
      simp only [sourcePriorityValue] at this
      omega
  omega

/-- C9: every record produced by the fuzzy strategy is built by the
directory-result factory, so it carries the GAL tag and has source priority
100 (never the fuzzy priority 20); and no record returned by
`GALAdapter.search` ever has source priority 20 (every stored record carries
a GAL or personal-contacts tag). -/
theorem search_no_low_priority (env : GalEnv) (query : String) (max_results : Nat)
    (return_full_data : Bool) (now : Int) :
    (∀ p ∈ searchFuzzy env query now,
      PersonSource.gal ∈ p.sources ∧ p.source_priority = 100) ∧
    (∀ p ∈ galSearch env query max_results return_full_data now,
      (PersonSource.gal ∈ p.sources ∨ PersonSource.contacts ∈ p.sources) ∧
      p.source_priority ≠ 20) := by
  constructor
  · intro p hp
    have hs := searchFuzzy_sources env query now p hp
    have hg : PersonSource.gal ∈ p.sources := by
      rw [hs]
      exact List.mem_singleton.mpr rfl
    exact ⟨hg, source_priority_eq_100_of_gal p hg⟩
  · intro p hp
    have hd := galSearch_hasDirTag env query max_results return_full_data now p hp
    exact ⟨hd, hasDirTag_priority_ne_20 p hd⟩

/-- A directory environment where only the fan-out letter "A" resolves. -/
def fuzzyEnv : GalEnv :=
  { resolve := fun q _ =>
      if q = "A" then
        .ok [.tup { email_address := some "aab@acme.com",
                    name := some "Aab Smith" } none]
      else .ok [],
    contactsAll := .ok [],
    similarity := fun _ _ => 1 }

/-- The fuzzy candidate parsed by the directory-result factory. -/
def aabPerson : Person :=
  { id := "aab@acme.com", name := "Aab Smith",
    email_addresses := [{ address := "aab@acme.com" }], sources := [.gal] }

/-- The same record as stored by `_merge_results` with the fuzzy tag added. -/
def taggedAab : Person := { aabPerson with sources := [.gal, .fuzzy_match] }

/-- Witness for C9: a concrete fuzzy-only search, whose fuzzy candidate
carries the GAL tag with priority 100 and whose returned record does not
have priority 20. -/
theorem search_no_low_priority_witness :
    aabPerson ∈ searchFuzzy fuzzyEnv "Zara" 0 ∧
    PersonSource.gal ∈ aabPerson.sources ∧ aabPerson.source_priority = 100 ∧
    taggedAab ∈ galSearch fuzzyEnv "Zara" 50 true 0 ∧
    taggedAab.source_priority ≠ 20 := by
  have h := search_no_low_priority fuzzyEnv "Zara" 50 true 0
  have h1 : aabPerson ∈ searchFuzzy fuzzyEnv "Zara" 0 := by
    with_unfolding_all decide
  have h2 : taggedAab ∈ galSearch fuzzyEnv "Zara" 50 true 0 := by
    with_unfolding_all decide
  exact ⟨h1, (h.1 aabPerson h1).1, (h.1 aabPerson h1).2, h2, (h.2 taggedAab h2).2⟩

/-! ### C10 — result records have emails; primary emails pairwise distinct -/

/-- Well-formed person: at least one email address, and the first one carries
the `is_primary` flag (true of every factory-constructed record, and
preserved by merging). -/
def wfPerson (p : Person) : Bool :=
  match p.email_addresses with
  | [] => false
  | e :: _ => e.is_primary

/-- The accumulator key a record answers to: its lower-cased primary email. -/
def keyOf (p : Person) : String :=
  match p.primary_email with
  | some e => pyLower e
  | none => ""

/-- An accumulator entry is stored under the lower-casing of its record's
non-empty primary email, and the record is well-formed. -/
def goodEntry (kv : String × Person) : Prop :=
  wfPerson kv.2 = true ∧
    ∃ e, kv.2.primary_email = some e ∧ e ≠ "" ∧ pyLower e = kv.1

/-- The `find_person` accumulator invariant: keys are pairwise distinct and
every entry is good. -/
def mapInv (m : List (String × Person)) : Prop :=
  (m.map Prod.fst).Nodup ∧ ∀ kv ∈ m, goodEntry kv

lemma wfPerson_ne_nil (p : Person) (h : wfPerson p = true) :
    p.email_addresses ≠ [] := by
  intro he
  have h2 : (match p.email_addresses with
    | [] => false
    | e :: _ => e.is_primary) = true := h
  rw [he] at h2
  exact Bool.noConfusion h2

lemma primary_email_head (p : Person) (first : EmailAddress) (rest : List EmailAddress)
    (h : p.email_addresses = first :: rest) (hfp : first.is_primary = true) :
    p.primary_email = some first.address := by
  have h1 : List.find? (fun e => e.is_primary) (first :: rest) = some first :=
    List.find?_cons_of_pos _ (by simpa using hfp)
  simp [Person.primary_email, h, h1]

lemma wf_mergeCore (b d : Person) (now : Int) (hb : wfPerson b = true) :
    wfPerson (mergeCore b d now) = true ∧
      (mergeCore b d now).primary_email = b.primary_email := by
  cases hbe : b.email_addresses with
  | nil => exact absurd hbe (wfPerson_ne_nil b hb)
  | cons first rest =>
    have hfp : first.is_primary = true := by
      have h2 : (match b.email_addresses with
        | [] => false
        | e :: _ => e.is_primary) = true := hb
      rw [hbe] at h2
      exact h2
    have hlist : (mergeCore b d now).email_addresses = first :: (rest ++
        d.email_addresses.filter
          (fun e => !((b.email_addresses.map (fun x => pyLower x.address)).contains
            (pyLower e.address)))) := by
      rw [mergeCore_email_addresses, hbe]
      rfl
    constructor
    · have h3 : (match (mergeCore b d now).email_addresses with
        | [] => false
        | e :: _ => e.is_primary) = first.is_primary := by
        rw [hlist]
      exact h3.trans hfp
    · rw [primary_email_head _ _ _ hlist hfp, primary_email_head b _ _ hbe hfp]

lemma wf_merge_with (A B : Person) (now : Int) (hA : wfPerson A = true)
    (hB : wfPerson B = true) :
    wfPerson (A.merge_with B now) = true ∧
      ((A.merge_with B now).primary_email = A.primary_email ∨
       (A.merge_with B now).primary_email = B.primary_email) := by
  unfold Person.merge_with
  rcases mergeBase_mergeDonor_cases A B with ⟨hb, hd⟩ | ⟨hb, hd⟩ <;> rw [hb, hd]
  · exact ⟨(wf_mergeCore A B now hA).1, Or.inl (wf_mergeCore A B now hA).2⟩
  · exact ⟨(wf_mergeCore B A now hB).1, Or.inr (wf_mergeCore B A now hB).2⟩

lemma adictSet_keys_of_mem {β : Type} (m : List (String × β)) (k : String) (v : β)
    (h : m.any (fun kv => kv.1 = k) = true) :
    (adictSet m k v).map Prod.fst = m.map Prod.fst := by
  unfold adictSet
  rw [if_pos h, List.map_map]
  refine List.map_congr_left ?_
  intro kv _
  by_cases hk : kv.1 = k
  · simp [hk]
  · simp [hk]

lemma adictSet_keys_of_not_mem {β : Type} (m : List (String × β)) (k : String) (v : β)
    (h : ¬ m.any (fun kv => kv.1 = k) = true) :
    (adictSet m k v).map Prod.fst = m.map Prod.fst ++ [k] := by
  unfold adictSet
  rw [if_neg h, List.map_append]
  rfl

lemma mapInv_adictSet (m : List (String × Person)) (k : String) (v : Person)
    (hm : mapInv m) (hv : goodEntry (k, v)) : mapInv (adictSet m k v) := by
  constructor
  · by_cases h : m.any (fun kv => kv.1 = k) = true
    · rw [adictSet_keys_of_mem m k v h]
      exact hm.1
    · rw [adictSet_keys_of_not_mem m k v h]
      have hk : k ∉ m.map Prod.fst := by
        intro hin
        rcases List.mem_map.mp hin with ⟨kv, hkv, he⟩
        exact h (List.any_eq_true.mpr ⟨kv, hkv, by simp [he]⟩)
      refine List.Nodup.append hm.1 (by simp) ?_
      intro a ha hb
      rw [List.mem_singleton.mp hb] at ha
      exact hk ha
  · intro kv hkv
    rcases mem_adictSet_cases _ _ _ _ hkv with h1 | h1
    · rw [h1]
      exact hv
    · exact hm.2 kv h1

lemma galInsert_inv (m : List (String × Person)) (person : Person)
    (hm : mapInv m) (hwf : wfPerson person = true) : mapInv (galInsert m person) := by
  unfold galInsert
  cases hpe : person.primary_email with
  | none => exact hm
  | some e =>
    show mapInv (if e.isEmpty = true then m else adictSet m (pyLower e) person)
    by_cases he : e.isEmpty = true
    · rw [if_pos he]
      exact hm
    · rw [if_neg he]
      exact mapInv_adictSet _ _ _ hm
        ⟨hwf, e, hpe, fun hE => he (by rw [hE]; rfl), rfl⟩

lemma mergeInsert_inv (now : Int) (m : List (String × Person)) (person : Person)
    (hm : mapInv m) (hwf : wfPerson person = true) :
    mapInv (mergeInsert now m person) := by
  unfold mergeInsert
  cases hpe : person.primary_email with
  | none => exact hm
  | some e =>
    show mapInv (if e.isEmpty = true then m
      else match alookup m (pyLower e) with
        | some existing => adictSet m (pyLower e) (existing.merge_with person now)
        | none => adictSet m (pyLower e) person)
    by_cases he : e.isEmpty = true
    · rw [if_pos he]
      exact hm
    · rw [if_neg he]
      have hene : e ≠ "" := fun hE => he (by rw [hE]; rfl)
      cases ha : alookup m (pyLower e) with
      | none =>
        show mapInv (adictSet m (pyLower e) person)
        exact mapInv_adictSet _ _ _ hm ⟨hwf, e, hpe, hene, rfl⟩
      | some existing =>
        show mapInv (adictSet m (pyLower e) (existing.merge_with person now))
        rcases hm.2 _ (alookup_mem _ _ _ ha) with ⟨hwfe, e1, hpe1, he1ne, hkey⟩
        rcases wf_merge_with existing person now hwfe hwf with ⟨hwfm, hpm⟩
        refine mapInv_adictSet _ _ _ hm ⟨hwfm, ?_⟩
        rcases hpm with hp1 | hp1
        · exact ⟨e1, hp1.trans hpe1, he1ne, hkey⟩
        · exact ⟨e, hp1.trans hpe, hene, rfl⟩

lemma foldl_galInsert_inv (l : List Person) (hl : ∀ p ∈ l, wfPerson p = true) :
    ∀ m, mapInv m → mapInv (l.foldl galInsert m) := by
  induction l with
  | nil => exact fun m hm => hm
  | cons p t ih =>
    intro m hm
    exact ih (fun x hx => hl x (List.mem_cons_of_mem _ hx)) _
      (galInsert_inv m p hm (hl p (List.mem_cons_self _ _)))

lemma foldl_mergeInsert_inv (now : Int) (l : List Person)
    (hl : ∀ p ∈ l, wfPerson p = true) :
    ∀ m, mapInv m → mapInv (l.foldl (mergeInsert now) m) := by
  induction l with
  | nil => exact fun m hm => hm
  | cons p t ih =>
    intro m hm
    exact ih (fun x hx => hl x (List.mem_cons_of_mem _ hx)) _
      (mergeInsert_inv now m p hm (hl p (List.mem_cons_self _ _)))

lemma from_contact_wf (c : Contact) (now : Int) (p : Person)
    (h : Person.from_contact c now = .ok p) : wfPerson p = true := by
  unfold Person.from_contact at h
  repeat' split at h
  all_goals first
    | exact Except.noConfusion h
    | (injection h with h2
       subst h2
       simp_all [wfPerson, List.enum, List.enumFrom])

lemma svcSearchContacts_wf (q : String) (ca : Except Unit (List Contact)) (now : Int) :
    ∀ p ∈ svcSearchContacts q ca now, wfPerson p = true := by
  intro p hp
  unfold svcSearchContacts at hp
  split at hp
  · cases hp
  · rcases List.mem_filterMap.mp hp with ⟨contact, _, hpr⟩
    try dsimp only at hpr
    split at hpr
    · cases hto : Person.from_contact contact now with
      | error e =>
        rw [hto] at hpr
        exact Option.noConfusion hpr
      | ok q2 =>
        rw [hto] at hpr
        have hqp : q2 = p := by simpa [Except.toOption] using hpr
        subst hqp
        exact from_contact_wf _ _ _ hto
    · exact Option.noConfusion hpr

lemma searchEmailHistory_wf (q : String) (is : Bool)
    (inboxItems : Except Unit (List InboxItem))
    (sentItems : Except Unit (List SentItem)) (now : Int) :
    ∀ p ∈ searchEmailHistory q is inboxItems sentItems now, wfPerson p = true := by
  intro p hp
  unfold searchEmailHistory at hp
  split at hp
  · cases hp
  · cases hp
  · rcases List.mem_map.mp hp with ⟨ke, _, rfl⟩
    rfl

lemma mapInv_values_keys (m : List (String × Person)) (hm : mapInv m) :
    (m.map Prod.snd).map keyOf = m.map Prod.fst := by
  rw [List.map_map]
  refine List.map_congr_left ?_
  intro kv hkv
  rcases hm.2 kv hkv with ⟨_, e, hpe, _, hkey⟩
  show keyOf kv.2 = kv.1
  unfold keyOf
  rw [hpe]
  exact hkey

lemma ranked_values_spec (m : List (String × Person)) (hm : mapInv m)
    (query : String) (now : Int) (max_results : Nat) :
    (∀ p ∈ (rankPersons (m.map Prod.snd) query now).take max_results,
      p.email_addresses ≠ [] ∧ (p.primary_email).isSome = true) ∧
    (((rankPersons (m.map Prod.snd) query now).take max_results).map keyOf).Nodup := by
  constructor
  · intro p hp
    have hp2 : p ∈ m.map Prod.snd :=
      (sortDesc_perm (calculateScore query now) _).mem_iff.mp (List.mem_of_mem_take hp)
    rcases List.mem_map.mp hp2 with ⟨kv, hkv, rfl⟩
    rcases hm.2 kv hkv with ⟨hwf, e, hpe, _, _⟩
    exact ⟨wfPerson_ne_nil _ hwf, by rw [hpe]; rfl⟩
  · have h1 : ((m.map Prod.snd).map keyOf) = m.map Prod.fst := mapInv_values_keys m hm
    have h3 : ((rankPersons (m.map Prod.snd) query now).map keyOf).Nodup := by
      have hperm := (sortDesc_perm (calculateScore query now) (m.map Prod.snd)).map keyOf
      exact hperm.symm.nodup (h1 ▸ hm.1)
    rw [List.map_take]
    exact (List.take_sublist _ _).nodup h3

/-- C10: every record returned by `find_person` has at least one email
address (its primary email is defined), and the lower-cased primary emails of
the returned records are pairwise distinct — the accumulator is keyed by
lower-cased primary email, records lacking one are skipped, and merging two
records colliding on a key yields a record whose primary email still lowers
to that key. (The GAL input records are assumed well-formed: their first
email address carries the primary flag, as every factory path guarantees.) -/
theorem find_person_unique_primary_emails (query : String)
    (sources : Option (List String)) (cachedGal : Option (List Person))
    (galFetched : Except Unit (List Person))
    (contactsAll : Except Unit (List Contact))
    (inboxItems : Except Unit (List InboxItem))
    (sentItems : Except Unit (List SentItem))
    (include_stats : Bool) (max_results : Nat) (now : Int)
    (hc : ∀ l, cachedGal = some l → ∀ p ∈ l, wfPerson p = true)
    (hf : ∀ l, galFetched = .ok l → ∀ p ∈ l, wfPerson p = true) :
    ∀ res, findPerson query sources cachedGal galFetched contactsAll inboxItems
        sentItems include_stats max_results now = .ok res →
      (∀ p ∈ res, p.email_addresses ≠ [] ∧ (p.primary_email).isSome = true) ∧
      (res.map keyOf).Nodup := by
  intro res hres
  unfold findPerson at hres
  cases hgo : (if ((defaultSources sources).contains "gal") = true then
      getOrFetch cachedGal galFetched else Except.ok []) with
  | error e =>
    rw [hgo] at hres
    have h4 : (Except.error e : Except Unit (List Person)) = Except.ok res := hres
    exact Except.noConfusion h4
  | ok gal_persons =>
    rw [hgo] at hres
    have h2 : Except.ok (findPersonCore query (defaultSources sources) gal_persons
        contactsAll inboxItems sentItems include_stats max_results now) =
        Except.ok res := hres
    have h3 := Except.ok.inj h2
    have hgwf : ∀ p ∈ gal_persons, wfPerson p = true := by
      by_cases hgal : ((defaultSources sources).contains "gal") = true
      · rw [if_pos hgal] at hgo
        cases hcg : cachedGal with
        | some l =>
          rw [hcg] at hgo
          have h4 : (Except.ok l : Except Unit (List Person)) = .ok gal_persons := hgo
          have h5 := Except.ok.inj h4
          exact h5 ▸ hc l hcg
        | none =>
          rw [hcg] at hgo
          cases hgf : galFetched with
          | error e =>
            rw [hgf] at hgo
            have h4 : (Except.error e : Except Unit (List Person)) =
                .ok gal_persons := hgo
            exact Except.noConfusion h4
          | ok l =>
            rw [hgf] at hgo
            have h4 : (Except.ok l : Except Unit (List Person)) = .ok gal_persons := hgo
            have h5 := Except.ok.inj h4
            exact h5 ▸ hf l hgf
      · rw [if_neg hgal] at hgo
        have h4 : (Except.ok ([] : List Person)) = .ok gal_persons := hgo
        have h5 := Except.ok.inj h4
        rw [← h5]
        simp
    have hinv1 : mapInv (gal_persons.foldl galInsert []) :=
      foldl_galInsert_inv gal_persons hgwf [] ⟨by simp, by simp⟩
    have hinv2 : mapInv (if ((defaultSources sources).contains "contacts") = true then
          (svcSearchContacts query contactsAll now).foldl (mergeInsert now)
            (gal_persons.foldl galInsert [])
        else gal_persons.foldl galInsert []) := by
      by_cases h : ((defaultSources sources).contains "contacts") = true
      · rw [if_pos h]
        exact foldl_mergeInsert_inv now _ (svcSearchContacts_wf query contactsAll now)
          _ hinv1
      · rw [if_neg h]
        exact hinv1
    have hinv3 : mapInv (if ((defaultSources sources).contains "email_history") = true
        then (searchEmailHistory query include_stats inboxItems sentItems now).foldl
            (mergeInsert now)
            (if ((defaultSources sources).contains "contacts") = true then
                (svcSearchContacts query contactsAll now).foldl (mergeInsert now)
                  (gal_persons.foldl galInsert [])
              else gal_persons.foldl galInsert [])
        else (if ((defaultSources sources).contains "contacts") = true then
                (svcSearchContacts query contactsAll now).foldl (mergeInsert now)
                  (gal_persons.foldl galInsert [])
              else gal_persons.foldl galInsert [])) := by
      by_cases h : ((defaultSources sources).contains "email_history") = true
      · rw [if_pos h]
        exact foldl_mergeInsert_inv now _
          (searchEmailHistory_wf query include_stats inboxItems sentItems now) _ hinv2
      · rw [if_neg h]
        exact hinv2
    rw [← h3]
    exact ranked_values_spec _ hinv3 query now max_results

/-- Witness for C10 at a concrete call whose GAL source returns one
well-formed record. -/
theorem find_person_unique_primary_emails_witness :
    (∀ p ∈ [dirPerson], p.email_addresses ≠ [] ∧ (p.primary_email).isSome = true) ∧
    (([dirPerson] : List Person).map keyOf).Nodup := by
  have heq : findPerson "jane" none none (.ok [dirPerson]) (.ok []) (.ok [])
      (.ok []) true 50 0 = .ok [dirPerson] := by rfl
  exact find_person_unique_primary_emails "jane" none none (.ok [dirPerson])
    (.ok []) (.ok []) (.ok []) true 50 0 (fun l hl => nomatch hl)
    (fun l hl => by
      injection hl with h2
      subst h2
      intro p hp
      rw [List.mem_singleton.mp hp]
      decide) [dirPerson] heq
